import Mathlib

/-!
# svgcleaner-gui: `Task::cleanFile` (src/cleaner.cpp)

A shallow embedding of the per-file cleaning task.  The task is sequencing
code over four collaborators (filesystem, archive service, process runner,
translation), so the embedding is a state-and-exception computation over an
abstract world `σ`:

* the collaborators are the fields of `Services`; each one takes the world
  and returns its answer together with the world it leaves behind;
* every collaborator call that changes the world is appended, with its
  arguments and its outcome, to a trace of `Call`s;
* `throw`ing a `QString` is the error channel of `TaskM`; the world and the
  trace survive a throw, as they do in C++.

The Qt string functions the task calls (`trimmed`, `contains`, `toLower`,
`QFileInfo::suffix`, `arg`) are modelled on lists of characters after their
Qt documentation.

Where the type of what is thrown matters (the handler of line 40 is for
`const QString &`), the task is embedded a second time, as `_cleanFileX` and
`cleanFileX`, over collaborators that throw either a `QString` or a value of
another type.
-/

namespace SvgCleaner

/-! ## Qt string functions used by the task -/

/-- Qt's `QChar::isSpace`: the ASCII characters tab, line feed, vertical tab,
form feed, carriage return and space, then U+0085, U+00A0 and the characters
of the Unicode separator categories Zs, Zl and Zp. -/
def QChar.isSpace (c : Char) : Bool :=
  let n := c.toNat
  n == 0x20 || (0x09 ≤ n && n ≤ 0x0d) || n == 0x85 || n == 0xa0 || n == 0x1680
    || (0x2000 ≤ n && n ≤ 0x200a) || n == 0x2028 || n == 0x2029 || n == 0x202f
    || n == 0x205f || n == 0x3000

/-- Characters of `QString::trimmed`: whitespace (`QChar::isSpace`) removed
from the start and from the end. -/
def trimmedChars (cs : List Char) : List Char :=
  ((cs.dropWhile QChar.isSpace).reverse.dropWhile QChar.isSpace).reverse

/-- Qt's `QString::trimmed`. -/
def QString.trimmed (s : String) : String :=
  String.mk (trimmedChars s.data)

/-- Case-sensitive substring search on characters: `pat` occurs in the list
at some position (the empty pattern occurs everywhere). -/
def containsChars (pat : List Char) : List Char → Bool
  | [] => pat.isEmpty
  | c :: cs => pat.isPrefixOf (c :: cs) || containsChars pat cs

/-- Qt's `QString::contains(const QString &)` with the default
`Qt::CaseSensitive`. -/
def QString.contains (s pat : String) : Bool :=
  containsChars pat.data s.data

/-- Qt's `QString::toLower`.  Only the ASCII letters are mapped; the task
compares the result with `"svgz"`, and no character outside `A`-`Z` has one
of `s`, `v`, `g`, `z` as its lower case, so this agrees with the Unicode
mapping on that comparison. -/
def QString.toLower (s : String) : String :=
  String.mk (s.data.map Char.toLower)

/-- The characters after the last occurrence of `sep`, when there is one. -/
def afterLast (sep : Char) : List Char → Option (List Char)
  | [] => none
  | c :: cs =>
    match afterLast sep cs with
    | some r => some r
    | none => if c = sep then some cs else none

/-- Qt's `QFileInfo::fileName`: the path without its directory part (what
follows the last `/`). -/
def QFileInfo.fileName (path : String) : String :=
  String.mk ((afterLast '/' path.data).getD path.data)

/-- Qt's `QFileInfo::suffix`: all characters of the file name after (not
including) the last `.`, empty when the file name has no dot. -/
def QFileInfo.suffix (path : String) : String :=
  String.mk ((afterLast '.' (QFileInfo.fileName path).data).getD [])

/-- Replace every `%1` of a list of characters by `a`. -/
def argChars (a : List Char) : List Char → List Char
  | [] => []
  | [c] => [c]
  | c :: d :: cs =>
    if c = '%' ∧ d = '1' then a ++ argChars a cs else c :: argChars a (d :: cs)

/-- Qt's `QString::arg(const QString &)` for a format string whose only
place marker is `%1`, as is the one of the task: each `%1` is replaced by
`a` (the replacement text is not scanned again). -/
def QString.arg (fmt a : String) : String :=
  String.mk (argChars a.data fmt.data)

/-! ## Data model (cleaner.h, compressor.h) -/

/-- Modelled from the spec: the enum `Compressor::Type` of compressor.h,
which is not in the sources.  The spec gives it as `{None, FormatA,
FormatB, ...}`; the task only compares it with `None` and hands it to the
archive service. -/
inductive Compressor.Type where
  | None
  | FormatA
  | FormatB
  deriving DecidableEq, Repr

/-- Modelled from the spec: `Task::Config` of cleaner.h, which is not in the
sources.  `treeItem` is a pointer, modelled by its address, `0` being
`nullptr`; `compressionLevel` is the level handed to the archive service. -/
structure Config where
  inputPath : String
  outputPath : String
  args : List String
  treeItem : Nat
  compressorType : Compressor.Type
  compressOnlySvgz : Bool
  compressionLevel : Int
  deriving DecidableEq, Repr

/-- Modelled from the spec: `Task::Output::OkData` of cleaner.h.  The type
`ρ` of `ratio` is the result type of `Utils::cleanerRatio`. -/
structure OkData (ρ : Type) where
  outSize : Int
  ratio : ρ
  outputPath : String
  deriving DecidableEq, Repr

/-- Modelled from the spec: `Task::Output` of cleaner.h with its three
constructors `Output::ok`, `Output::warning` and `Output::error`; each
carries the `treeItem` it reports against. -/
inductive Output (ρ : Type) where
  | ok (okData : OkData ρ) (treeItem : Nat)
  | warning (okData : OkData ρ) (msg : String) (treeItem : Nat)
  | error (msg : String) (treeItem : Nat)
  deriving DecidableEq, Repr

/-- The tree item an output reports against. -/
def Output.treeItem {ρ : Type} : Output ρ → Nat
  | .ok _ t => t
  | .warning _ _ t => t
  | .error _ t => t

/-- The `OkData` of an `Ok` or `Warning` output. -/
def Output.okData? {ρ : Type} : Output ρ → Option (OkData ρ)
  | .ok d _ => some d
  | .warning d _ _ => some d
  | .error _ _ => none

/-! ## Collaborators, trace and the task monad -/

deriving instance DecidableEq for Except

/-- One world-changing collaborator call, with its arguments and outcome.
A `failure` is the message of the `QString` the collaborator threw. -/
inductive Call where
  | mkpath (dirPath : String) (flag : Bool)
  | unzip (inPath outPath : String) (failure : Option String)
  | run (name : String) (args : List String) (timeout : Int) (mergeChannels : Bool)
      (result : Except String String)
  | remove (fileName : String) (flag : Bool)
  | zip (type : Compressor.Type) (lvl : Int) (inFile outFile : String)
      (failure : Option String)
  deriving DecidableEq, Repr

/-- The collaborators of the task over a world `σ`.  None of them is in the
sources: `QFileInfo`, `QDir` and `QFile` are Qt's, `Compressor`, `Process`,
`Utils::cleanerRatio` and `Cleaner::Name` are declared in headers that are
not part of the sources, so all are taken as parameters. -/
structure Services (σ ρ : Type) where
  /-- Qt call `QFileInfo(path).absolutePath()`: the absolute path of the folder. -/
  absolutePath : σ → String → String
  /-- Qt call `QFileInfo().exists(path)`. -/
  pathExists : σ → String → Bool
  /-- Qt call `QDir().mkpath(dirPath)`: create the folder and all its parents. -/
  mkpath : σ → String → Bool × σ
  /-- Qt call `QFile(path).size()`. -/
  size : σ → String → Int
  /-- Qt call `QFile().remove(fileName)`. -/
  remove : σ → String → Bool × σ
  /-- Archive call `Compressor::unzip(inPath, outPath)`; `some m` when it throws `m`. -/
  unzip : σ → String → String → Option String × σ
  /-- Archive call `Compressor(type).zip(lvl, inFile, outFile)`; `some m` when it throws. -/
  zip : σ → Compressor.Type → Int → String → String → Option String × σ
  /-- Runner call `Process::run(name, args, timeout, mergeChannels)`: the captured text,
  or the message it throws. -/
  run : σ → String → List String → Int → Bool → Except String String × σ
  /-- Function `Utils::cleanerRatio(inSize, outSize)`. -/
  cleanerRatio : Int → Int → ρ
  /-- Constant `Cleaner::Name`, the program name of the external cleaner. -/
  cleanerName : String
  /-- Function `tr(sourceText)`: the translation of a source text. -/
  tr : String → String

/-- What a run carries along: the world and the trace of calls so far. -/
structure TaskState (σ : Type) where
  world : σ
  trace : List Call

/-- Computations of the task: they read and change the state and either
return a value or throw a `QString`; the state survives a throw. -/
abbrev TaskM (σ α : Type) : Type :=
  TaskState σ → Except String α × TaskState σ

namespace TaskM

variable {σ ρ α β : Type}

/-- Return a value, state unchanged. -/
def ret (a : α) : TaskM σ α := fun s => (.ok a, s)

/-- Sequencing: a throw of the first computation skips the second. -/
def andThen (m : TaskM σ α) (f : α → TaskM σ β) : TaskM σ β := fun s =>
  match m s with
  | (.ok a, s1) => f a s1
  | (.error e, s1) => (.error e, s1)

/-- The `throw` of C++. -/
def raise (e : String) : TaskM σ α := fun s => (.error e, s)

/-- The `try`/`catch (const QString &s)` of C++: run `m`, and `h` on what it throws. -/
def tryCatchQString (m : TaskM σ α) (h : String → TaskM σ α) : TaskM σ α := fun s =>
  match m s with
  | (.ok a, s1) => (.ok a, s1)
  | (.error e, s1) => h e s1

instance : Monad (TaskM σ) where
  pure := ret
  bind := andThen

instance : MonadExcept String (TaskM σ) where
  throw := raise
  tryCatch := tryCatchQString

/-- The call `QFileInfo(path).absolutePath()`. -/
def absolutePath (sv : Services σ ρ) (path : String) : TaskM σ String := fun s =>
  (.ok (sv.absolutePath s.world path), s)

/-- The call `QFileInfo().exists(path)`. -/
def pathExists (sv : Services σ ρ) (path : String) : TaskM σ Bool := fun s =>
  (.ok (sv.pathExists s.world path), s)

/-- The call `QFile(path).size()`. -/
def size (sv : Services σ ρ) (path : String) : TaskM σ Int := fun s =>
  (.ok (sv.size s.world path), s)

/-- The call `QDir().mkpath(dirPath)`, recorded in the trace. -/
def mkpath (sv : Services σ ρ) (dirPath : String) : TaskM σ Bool := fun s =>
  let r := sv.mkpath s.world dirPath
  (.ok r.1, ⟨r.2, s.trace ++ [Call.mkpath dirPath r.1]⟩)

/-- The call `QFile().remove(fileName)`, recorded in the trace. -/
def remove (sv : Services σ ρ) (fileName : String) : TaskM σ Bool := fun s =>
  let r := sv.remove s.world fileName
  (.ok r.1, ⟨r.2, s.trace ++ [Call.remove fileName r.1]⟩)

/-- The call `Compressor::unzip(inPath, outPath)`, recorded in the trace; its throw is
a throw of the computation. -/
def unzip (sv : Services σ ρ) (inPath outPath : String) : TaskM σ Unit := fun s =>
  let r := sv.unzip s.world inPath outPath
  let s1 : TaskState σ := ⟨r.2, s.trace ++ [Call.unzip inPath outPath r.1]⟩
  match r.1 with
  | none => (.ok (), s1)
  | some e => (.error e, s1)

/-- The call `Compressor(type).zip(lvl, inFile, outFile)`, recorded in the trace; its
throw is a throw of the computation. -/
def zip (sv : Services σ ρ) (type : Compressor.Type) (lvl : Int)
    (inFile outFile : String) : TaskM σ Unit := fun s =>
  let r := sv.zip s.world type lvl inFile outFile
  let s1 : TaskState σ := ⟨r.2, s.trace ++ [Call.zip type lvl inFile outFile r.1]⟩
  match r.1 with
  | none => (.ok (), s1)
  | some e => (.error e, s1)

/-- The call `Process::run(name, args, timeout, mergeChannels)`, recorded in the
trace; its throw is a throw of the computation. -/
def run (sv : Services σ ρ) (name : String) (args : List String) (timeout : Int)
    (mergeChannels : Bool) : TaskM σ String := fun s =>
  let r := sv.run s.world name args timeout mergeChannels
  (r.1, ⟨r.2, s.trace ++ [Call.run name args timeout mergeChannels r.1]⟩)

end TaskM

/-! ## The task -/

open TaskM in
/-- The function `Task::_cleanFile` (cleaner.cpp, lines 45-120). -/
def _cleanFile {σ ρ : Type} (sv : Services σ ρ) (config : Config) : TaskM σ (Output ρ) := do
  let outFolder ← absolutePath sv config.outputPath
  if !(← pathExists sv outFolder) then
    let flag ← mkpath sv outFolder
    if !flag then
      throw (QString.arg (sv.tr "Failed to create an output folder:\n'%1'.") outFolder)

  -- take before cleaning in case of an overwrite mode
  let inSize ← size sv config.inputPath

  -- unzip svgz
  let mut inputFile := config.inputPath
  let inSuffix := QString.toLower (QFileInfo.suffix config.inputPath)
  let isInputFileCompressed : Bool := inSuffix == "svgz"
  if isInputFileCompressed then
    inputFile := config.outputPath
    unzip sv config.inputPath inputFile

  -- clean file
  let args := config.args ++ ["--quiet", inputFile, config.outputPath]

  let mut cleanerMsg ← run sv sv.cleanerName args 300000 true
  cleanerMsg := QString.trimmed cleanerMsg

  -- process output
  if QString.contains cleanerMsg "Error:" then
    if isInputFileCompressed then
      -- remove decompressed file
      let _ ← remove sv inputFile
    return Output.error cleanerMsg config.treeItem

  -- compress file
  let mut outPath := config.outputPath

  let mut shouldCompress := false
  if config.compressorType != Compressor.Type.None then
    -- compressor is set
    if config.compressOnlySvgz then
      -- check that input file was SVGZ
      if isInputFileCompressed then
        shouldCompress := true
    else
      shouldCompress := true

  if shouldCompress then
    outPath := outPath ++ "z"
    zip sv config.compressorType config.compressionLevel config.outputPath outPath

  let outSize ← size sv outPath
  let okData : OkData ρ :=
    { outSize := outSize, ratio := sv.cleanerRatio inSize outSize, outputPath := outPath }

  if QString.contains cleanerMsg "Warning:" then
    return Output.warning okData cleanerMsg config.treeItem

  return Output.ok okData config.treeItem

/-- The three `Q_ASSERT`s at the entry of `Task::cleanFile`. -/
def Config.asserted (config : Config) : Bool :=
  (config.inputPath.isEmpty == false) && (config.outputPath.isEmpty == false)
    && (config.treeItem != 0)

/-- The source's local `isInputFileCompressed` (cleaner.cpp, lines 61-62)
as a function of the config. -/
def Config.isInputFileCompressed (config : Config) : Bool :=
  QString.toLower (QFileInfo.suffix config.inputPath) == "svgz"

/-- What a call of `Task::cleanFile` leaves behind: the `Output` it returned,
the final world and the trace of collaborator calls. -/
structure Run (σ ρ : Type) where
  output : Output ρ
  world : σ
  trace : List Call

/-- The function `Task::cleanFile` (cleaner.cpp, lines 29-43), started in world `w` with
an empty trace.  `none` is a failed `Q_ASSERT` (the program aborts).  The
`try`/`catch` turns a `QString` thrown by `_cleanFile` into `Output::error`;
the world and the trace are those reached at the throw. -/
def cleanFile {σ ρ : Type} (sv : Services σ ρ) (config : Config) (w : σ) : Option (Run σ ρ) :=
  if config.asserted then
    match _cleanFile sv config ⟨w, []⟩ with
    | (.ok out, s1) => some ⟨out, s1.world, s1.trace⟩
    | (.error s, s1) => some ⟨Output.error s config.treeItem, s1.world, s1.trace⟩
  else
    none

/-! ## Vocabulary on traces -/

/-- The call is a `QDir().mkpath`. -/
def Call.isMkpath : Call → Bool
  | .mkpath _ _ => true
  | _ => false

/-- The call is a `Compressor::unzip`. -/
def Call.isUnzip : Call → Bool
  | .unzip _ _ _ => true
  | _ => false

/-- The call is a `Process::run`. -/
def Call.isRun : Call → Bool
  | .run _ _ _ _ _ => true
  | _ => false

/-- The call is a `QFile().remove`. -/
def Call.isRemove : Call → Bool
  | .remove _ _ => true
  | _ => false

/-- The call is a `Compressor::zip`. -/
def Call.isZip : Call → Bool
  | .zip _ _ _ _ _ => true
  | _ => false

/-- No call satisfying `p` occurs after a call satisfying `q`. -/
def noneAfter (p q : Call → Bool) : List Call → Bool
  | [] => true
  | c :: t => (!q c || t.all (fun d => !p d)) && noneAfter p q t

/-- The message a collaborator call failed with: the `QString` thrown by
the archive service or the process runner. -/
def Call.failure : Call → Option String
  | .unzip _ _ f => f
  | .zip _ _ _ _ f => f
  | .run _ _ _ _ (.error e) => some e
  | _ => none

/-! ## The paths through the task

A relational reading of `Task::_cleanFile`, used to reason by cases about a
run: `Path sv config w r` lists, for each way through the function, the
collaborator answers that select it and the run it leaves behind. -/

section Paths

variable {σ ρ : Type}

/-- Lines 47-54 passed: the output folder was there (no call), or `mkpath`
created it, leaving world `w1` after the calls `t1`. -/
inductive FolderReady (sv : Services σ ρ) (config : Config) (w : σ) : σ → List Call → Prop
  | present :
      sv.pathExists w (sv.absolutePath w config.outputPath) = true →
      FolderReady sv config w w []
  | created (w1 : σ) :
      sv.pathExists w (sv.absolutePath w config.outputPath) = false →
      sv.mkpath w (sv.absolutePath w config.outputPath) = (true, w1) →
      FolderReady sv config w w1
        [Call.mkpath (sv.absolutePath w config.outputPath) true]

/-- Lines 59-66 passed: the input is not SVGZ (no call), or `unzip` returned,
leaving world `w2` after the calls `t2`. -/
inductive Unzipped (sv : Services σ ρ) (config : Config) (w1 : σ) : σ → List Call → Prop
  | plain :
      config.isInputFileCompressed = false →
      Unzipped sv config w1 w1 []
  | unzipped (w2 : σ) :
      config.isInputFileCompressed = true →
      sv.unzip w1 config.inputPath config.outputPath = (none, w2) →
      Unzipped sv config w1 w2 [Call.unzip config.inputPath config.outputPath none]

/-- The argument list of line 71. -/
def cleanerArgs (config : Config) : List String :=
  config.args ++
    ["--quiet", if config.isInputFileCompressed then config.outputPath else config.inputPath,
      config.outputPath]

/-- The `Process::run` call of line 74 with its result. -/
def runCall (sv : Services σ ρ) (config : Config) (result : Except String String) : Call :=
  Call.run sv.cleanerName (cleanerArgs config) 300000 true result

/-- The `zip` call of lines 106-107 with its outcome. -/
def zipCall (config : Config) (failure : Option String) : Call :=
  Call.zip config.compressorType config.compressionLevel config.outputPath
    (config.outputPath ++ "z") failure

/-- The value of `shouldCompress` at line 104. -/
def shouldCompress (config : Config) : Bool :=
  if config.compressorType != Compressor.Type.None then
    if config.compressOnlySvgz then
      if config.isInputFileCompressed then true else false
    else true
  else false

/-- The output of lines 110-119 for the final world `w4`, the input size
`inSize`, the reported path `outPath` and the trimmed text `msg`. -/
def report (sv : Services σ ρ) (config : Config) (w4 : σ) (inSize : Int)
    (outPath msg : String) : Output ρ :=
  let okData : OkData ρ :=
    { outSize := sv.size w4 outPath, ratio := sv.cleanerRatio inSize (sv.size w4 outPath),
      outputPath := outPath }
  if QString.contains msg "Warning:" then Output.warning okData msg config.treeItem
  else Output.ok okData config.treeItem

/-- The ways through `Task::cleanFile` from world `w`, each with the run it
leaves behind. -/
inductive Path (sv : Services σ ρ) (config : Config) (w : σ) (r : Run σ ρ) : Prop
  | folderFailed (w1 : σ)
      (hex : sv.pathExists w (sv.absolutePath w config.outputPath) = false)
      (hmk : sv.mkpath w (sv.absolutePath w config.outputPath) = (false, w1))
      (hout : r.output = Output.error
        (QString.arg (sv.tr "Failed to create an output folder:\n'%1'.")
          (sv.absolutePath w config.outputPath)) config.treeItem)
      (hworld : r.world = w1)
      (htrace : r.trace = [Call.mkpath (sv.absolutePath w config.outputPath) false])
  | unzipFailed (w1 w2 : σ) (t1 : List Call) (m : String)
      (hfolder : FolderReady sv config w w1 t1)
      (hz : config.isInputFileCompressed = true)
      (hunzip : sv.unzip w1 config.inputPath config.outputPath = (some m, w2))
      (hout : r.output = Output.error m config.treeItem)
      (hworld : r.world = w2)
      (htrace : r.trace = t1 ++ [Call.unzip config.inputPath config.outputPath (some m)])
  | runFailed (w1 w2 w3 : σ) (t1 t2 : List Call) (m : String)
      (hfolder : FolderReady sv config w w1 t1)
      (hunz : Unzipped sv config w1 w2 t2)
      (hrun : sv.run w2 sv.cleanerName (cleanerArgs config) 300000 true = (.error m, w3))
      (hout : r.output = Output.error m config.treeItem)
      (hworld : r.world = w3)
      (htrace : r.trace = t1 ++ t2 ++ [runCall sv config (.error m)])
  | errorMarker (w1 w2 w3 : σ) (t1 t2 : List Call) (text : String)
      (hfolder : FolderReady sv config w w1 t1)
      (hunz : Unzipped sv config w1 w2 t2)
      (hrun : sv.run w2 sv.cleanerName (cleanerArgs config) 300000 true = (.ok text, w3))
      (herr : QString.contains (QString.trimmed text) "Error:" = true)
      (hout : r.output = Output.error (QString.trimmed text) config.treeItem)
      (hworld : r.world =
        if config.isInputFileCompressed then (sv.remove w3 config.outputPath).2 else w3)
      (htrace : r.trace = t1 ++ t2 ++ [runCall sv config (.ok text)] ++
        if config.isInputFileCompressed then
          [Call.remove config.outputPath (sv.remove w3 config.outputPath).1]
        else [])
  | zipFailed (w1 w2 w3 w4 : σ) (t1 t2 : List Call) (text m : String)
      (hfolder : FolderReady sv config w w1 t1)
      (hunz : Unzipped sv config w1 w2 t2)
      (hrun : sv.run w2 sv.cleanerName (cleanerArgs config) 300000 true = (.ok text, w3))
      (herr : QString.contains (QString.trimmed text) "Error:" = false)
      (hsc : shouldCompress config = true)
      (hzip : sv.zip w3 config.compressorType config.compressionLevel config.outputPath
        (config.outputPath ++ "z") = (some m, w4))
      (hout : r.output = Output.error m config.treeItem)
      (hworld : r.world = w4)
      (htrace : r.trace = t1 ++ t2 ++ [runCall sv config (.ok text)] ++
        [zipCall config (some m)])
  | compressed (w1 w2 w3 w4 : σ) (t1 t2 : List Call) (text : String)
      (hfolder : FolderReady sv config w w1 t1)
      (hunz : Unzipped sv config w1 w2 t2)
      (hrun : sv.run w2 sv.cleanerName (cleanerArgs config) 300000 true = (.ok text, w3))
      (herr : QString.contains (QString.trimmed text) "Error:" = false)
      (hsc : shouldCompress config = true)
      (hzip : sv.zip w3 config.compressorType config.compressionLevel config.outputPath
        (config.outputPath ++ "z") = (none, w4))
      (hout : r.output = report sv config w4 (sv.size w1 config.inputPath)
        (config.outputPath ++ "z") (QString.trimmed text))
      (hworld : r.world = w4)
      (htrace : r.trace = t1 ++ t2 ++ [runCall sv config (.ok text)] ++ [zipCall config none])
  | cleaned (w1 w2 w3 : σ) (t1 t2 : List Call) (text : String)
      (hfolder : FolderReady sv config w w1 t1)
      (hunz : Unzipped sv config w1 w2 t2)
      (hrun : sv.run w2 sv.cleanerName (cleanerArgs config) 300000 true = (.ok text, w3))
      (herr : QString.contains (QString.trimmed text) "Error:" = false)
      (hsc : shouldCompress config = false)
      (hout : r.output = report sv config w3 (sv.size w1 config.inputPath)
        config.outputPath (QString.trimmed text))
      (hworld : r.world = w3)
      (htrace : r.trace = t1 ++ t2 ++ [runCall sv config (.ok text)])

end Paths

/-! ## The worlds a run passes through -/

section Worlds
variable {σ ρ : Type}

/-- The world in which line 57 runs: the world on entry when the output
folder exists, the world left by `mkpath` otherwise. -/
def folderWorld (sv : Services σ ρ) (config : Config) (w : σ) : σ :=
  if sv.pathExists w (sv.absolutePath w config.outputPath) then w
  else (sv.mkpath w (sv.absolutePath w config.outputPath)).2

/-- The world in which the process runner is called (line 74): the world left
by `unzip` for a compressed input, the world of line 57 otherwise. -/
def unzipWorld (sv : Services σ ρ) (config : Config) (w : σ) : σ :=
  if config.isInputFileCompressed then
    (sv.unzip (folderWorld sv config w) config.inputPath config.outputPath).2
  else folderWorld sv config w

/-- The world the process runner leaves behind (line 74). -/
def runWorld (sv : Services σ ρ) (config : Config) (w : σ) : σ :=
  (sv.run (unzipWorld sv config w) sv.cleanerName (cleanerArgs config) 300000 true).2

end Worlds

/-! ## Throws that are not `QString`s

The `catch` of line 40 names the type `const QString &`.  To say what that
means for a collaborator that throws something else, the task is embedded a
second time over collaborators whose throws are `Thrown` values: a `QString`
or a value of another type.  The trace is not kept here; the steps are those
of `_cleanFile`. -/

/-- What a collaborator throws: a `QString` with its message, or a value of
another C++ type (`std::bad_alloc`, ...), named by a text. -/
inductive Thrown where
  | qstring (message : String)
  | other (what : String)
  deriving DecidableEq, Repr

/-- The collaborators of `Services`, with `unzip`, `zip` and `run` throwing
`Thrown` values. -/
structure ServicesX (σ ρ : Type) where
  /-- Qt call `QFileInfo(path).absolutePath()`. -/
  absolutePath : σ → String → String
  /-- Qt call `QFileInfo().exists(path)`. -/
  pathExists : σ → String → Bool
  /-- Qt call `QDir().mkpath(dirPath)`. -/
  mkpath : σ → String → Bool × σ
  /-- Qt call `QFile(path).size()`. -/
  size : σ → String → Int
  /-- Qt call `QFile().remove(fileName)`. -/
  remove : σ → String → Bool × σ
  /-- Archive call `Compressor::unzip(inPath, outPath)`; `some t` when it throws `t`. -/
  unzip : σ → String → String → Option Thrown × σ
  /-- Archive call `Compressor(type).zip(lvl, inFile, outFile)`; `some t` when it throws. -/
  zip : σ → Compressor.Type → Int → String → String → Option Thrown × σ
  /-- Runner call `Process::run(name, args, timeout, mergeChannels)`: the captured text,
  or what it throws. -/
  run : σ → String → List String → Int → Bool → Except Thrown String × σ
  /-- Function `Utils::cleanerRatio(inSize, outSize)`. -/
  cleanerRatio : Int → Int → ρ
  /-- Constant `Cleaner::Name`. -/
  cleanerName : String
  /-- Function `tr(sourceText)`. -/
  tr : String → String

/-- Computations over a world that return a value or throw a `Thrown`; the
world survives a throw. -/
abbrev TaskMX (σ α : Type) : Type :=
  σ → Except Thrown α × σ

namespace TaskMX

variable {σ ρ α β : Type}

/-- Return a value, world unchanged. -/
def ret (a : α) : TaskMX σ α := fun s => (.ok a, s)

/-- Sequencing: a throw of the first computation skips the second. -/
def andThen (m : TaskMX σ α) (f : α → TaskMX σ β) : TaskMX σ β := fun s =>
  match m s with
  | (.ok a, s1) => f a s1
  | (.error e, s1) => (.error e, s1)

/-- The `throw` of C++. -/
def raise (e : Thrown) : TaskMX σ α := fun s => (.error e, s)

/-- The `try`/`catch` of C++ with a handler for every throw. -/
def tryCatchAll (m : TaskMX σ α) (h : Thrown → TaskMX σ α) : TaskMX σ α := fun s =>
  match m s with
  | (.ok a, s1) => (.ok a, s1)
  | (.error e, s1) => h e s1

instance : Monad (TaskMX σ) where
  pure := ret
  bind := andThen

instance : MonadExcept Thrown (TaskMX σ) where
  throw := raise
  tryCatch := tryCatchAll

/-- The call `QFileInfo(path).absolutePath()`. -/
def absolutePath (sx : ServicesX σ ρ) (path : String) : TaskMX σ String := fun s =>
  (.ok (sx.absolutePath s path), s)

/-- The call `QFileInfo().exists(path)`. -/
def pathExists (sx : ServicesX σ ρ) (path : String) : TaskMX σ Bool := fun s =>
  (.ok (sx.pathExists s path), s)

/-- The call `QFile(path).size()`. -/
def size (sx : ServicesX σ ρ) (path : String) : TaskMX σ Int := fun s =>
  (.ok (sx.size s path), s)

/-- The call `QDir().mkpath(dirPath)`. -/
def mkpath (sx : ServicesX σ ρ) (dirPath : String) : TaskMX σ Bool := fun s =>
  (.ok (sx.mkpath s dirPath).1, (sx.mkpath s dirPath).2)

/-- The call `QFile().remove(fileName)`. -/
def remove (sx : ServicesX σ ρ) (fileName : String) : TaskMX σ Bool := fun s =>
  (.ok (sx.remove s fileName).1, (sx.remove s fileName).2)

/-- The call `Compressor::unzip(inPath, outPath)`; its throw is a throw of the
computation. -/
def unzip (sx : ServicesX σ ρ) (inPath outPath : String) : TaskMX σ Unit := fun s =>
  match (sx.unzip s inPath outPath).1 with
  | none => (.ok (), (sx.unzip s inPath outPath).2)
  | some e => (.error e, (sx.unzip s inPath outPath).2)

/-- The call `Compressor(type).zip(lvl, inFile, outFile)`; its throw is a throw
of the computation. -/
def zip (sx : ServicesX σ ρ) (type : Compressor.Type) (lvl : Int)
    (inFile outFile : String) : TaskMX σ Unit := fun s =>
  match (sx.zip s type lvl inFile outFile).1 with
  | none => (.ok (), (sx.zip s type lvl inFile outFile).2)
  | some e => (.error e, (sx.zip s type lvl inFile outFile).2)

/-- The call `Process::run(name, args, timeout, mergeChannels)`; its throw is a
throw of the computation. -/
def run (sx : ServicesX σ ρ) (name : String) (args : List String) (timeout : Int)
    (mergeChannels : Bool) : TaskMX σ String := fun s =>
  sx.run s name args timeout mergeChannels

end TaskMX

open TaskMX in
/-- The function `Task::_cleanFile` (cleaner.cpp, lines 45-120) over
collaborators that throw `Thrown` values; line 52 throws a `QString`. -/
def _cleanFileX {σ ρ : Type} (sx : ServicesX σ ρ) (config : Config) : TaskMX σ (Output ρ) := do
  let outFolder ← absolutePath sx config.outputPath
  if !(← pathExists sx outFolder) then
    let flag ← mkpath sx outFolder
    if !flag then
      throw (Thrown.qstring
        (QString.arg (sx.tr "Failed to create an output folder:\n'%1'.") outFolder))

  -- take before cleaning in case of an overwrite mode
  let inSize ← size sx config.inputPath

  -- unzip svgz
  let mut inputFile := config.inputPath
  let inSuffix := QString.toLower (QFileInfo.suffix config.inputPath)
  let isInputFileCompressed : Bool := inSuffix == "svgz"
  if isInputFileCompressed then
    inputFile := config.outputPath
    unzip sx config.inputPath inputFile

  -- clean file
  let args := config.args ++ ["--quiet", inputFile, config.outputPath]

  let mut cleanerMsg ← run sx sx.cleanerName args 300000 true
  cleanerMsg := QString.trimmed cleanerMsg

  -- process output
  if QString.contains cleanerMsg "Error:" then
    if isInputFileCompressed then
      -- remove decompressed file
      let _ ← remove sx inputFile
    return Output.error cleanerMsg config.treeItem

  -- compress file
  let mut outPath := config.outputPath

  let mut shouldCompress := false
  if config.compressorType != Compressor.Type.None then
    -- compressor is set
    if config.compressOnlySvgz then
      -- check that input file was SVGZ
      if isInputFileCompressed then
        shouldCompress := true
    else
      shouldCompress := true

  if shouldCompress then
    outPath := outPath ++ "z"
    zip sx config.compressorType config.compressionLevel config.outputPath outPath

  let outSize ← size sx outPath
  let okData : OkData ρ :=
    { outSize := outSize, ratio := sx.cleanerRatio inSize outSize, outputPath := outPath }

  if QString.contains cleanerMsg "Warning:" then
    return Output.warning okData cleanerMsg config.treeItem

  return Output.ok okData config.treeItem

/-- How a call of `Task::cleanFile` ends: a failed `Q_ASSERT` aborts the
program, the function returns an `Output`, or a throw leaves the function and
reaches the caller. -/
inductive Outcome (σ ρ : Type) where
  | aborted
  | returned (output : Output ρ) (world : σ)
  | propagated (what : String) (world : σ)

/-- The function `Task::cleanFile` (cleaner.cpp, lines 29-43) over
collaborators that throw `Thrown` values.  The handler of line 40 is for
`const QString &`: a `QString` becomes `Output::error`; a throw of another
type finds no handler and leaves the function. -/
def cleanFileX {σ ρ : Type} (sx : ServicesX σ ρ) (config : Config) (w : σ) : Outcome σ ρ :=
  if config.asserted then
    match _cleanFileX sx config w with
    | (.ok out, w1) => .returned out w1
    | (.error (.qstring s), w1) => .returned (Output.error s config.treeItem) w1
    | (.error (.other e), w1) => .propagated e w1
  else
    .aborted

section WorldsX

variable {σ ρ : Type}

/-- The world in which line 57 runs, over `ServicesX`. -/
def folderWorldX (sx : ServicesX σ ρ) (config : Config) (w : σ) : σ :=
  if sx.pathExists w (sx.absolutePath w config.outputPath) then w
  else (sx.mkpath w (sx.absolutePath w config.outputPath)).2

/-- The world in which the process runner is called, over `ServicesX`. -/
def unzipWorldX (sx : ServicesX σ ρ) (config : Config) (w : σ) : σ :=
  if config.isInputFileCompressed then
    (sx.unzip (folderWorldX sx config w) config.inputPath config.outputPath).2
  else folderWorldX sx config w

/-- The world the process runner leaves behind, over `ServicesX`. -/
def runWorldX (sx : ServicesX σ ρ) (config : Config) (w : σ) : σ :=
  (sx.run (unzipWorldX sx config w) sx.cleanerName (cleanerArgs config) 300000 true).2

/-- What lines 38-42 make of a throw that reaches them in world `w1`. -/
def caught (config : Config) (t : Thrown) (w1 : σ) : Outcome σ ρ :=
  match t with
  | .qstring s => .returned (Output.error s config.treeItem) w1
  | .other e => .propagated e w1

/-- The output of lines 110-119, over `ServicesX`. -/
def reportX (sx : ServicesX σ ρ) (config : Config) (w4 : σ) (inSize : Int)
    (outPath msg : String) : Output ρ :=
  let okData : OkData ρ :=
    { outSize := sx.size w4 outPath, ratio := sx.cleanerRatio inSize (sx.size w4 outPath),
      outputPath := outPath }
  if QString.contains msg "Warning:" then Output.warning okData msg config.treeItem
  else Output.ok okData config.treeItem

/-- The outcome of `cleanFileX` once the runner has returned `text` in world
`w3`, the size of the input being `inSize` (lines 77-119 and 38-42). -/
def afterRunX (sx : ServicesX σ ρ) (config : Config) (inSize : Int) (text : String)
    (w3 : σ) : Outcome σ ρ :=
  if QString.contains (QString.trimmed text) "Error:" then
    .returned (Output.error (QString.trimmed text) config.treeItem)
      (if config.isInputFileCompressed then (sx.remove w3 config.outputPath).2 else w3)
  else if shouldCompress config then
    match (sx.zip w3 config.compressorType config.compressionLevel config.outputPath
        (config.outputPath ++ "z")).1 with
    | some t =>
      caught config t (sx.zip w3 config.compressorType config.compressionLevel
        config.outputPath (config.outputPath ++ "z")).2
    | none =>
      .returned
        (reportX sx config
          (sx.zip w3 config.compressorType config.compressionLevel config.outputPath
            (config.outputPath ++ "z")).2
          inSize (config.outputPath ++ "z") (QString.trimmed text))
        (sx.zip w3 config.compressorType config.compressionLevel config.outputPath
          (config.outputPath ++ "z")).2
  else
    .returned (reportX sx config w3 inSize config.outputPath (QString.trimmed text)) w3

/-- The outcome of `cleanFileX` once the folder step has passed, leaving world
`w1` (lines 56-119 and 38-42). -/
def afterFolderX (sx : ServicesX σ ρ) (config : Config) (w1 : σ) : Outcome σ ρ :=
  let w2 := if config.isInputFileCompressed then
      (sx.unzip w1 config.inputPath config.outputPath).2 else w1
  match (if config.isInputFileCompressed then
      (sx.unzip w1 config.inputPath config.outputPath).1 else none) with
  | some t => caught config t w2
  | none =>
    match sx.run w2 sx.cleanerName (cleanerArgs config) 300000 true with
    | (.error t, w3) => caught config t w3
    | (.ok text, w3) => afterRunX sx config (sx.size w1 config.inputPath) text w3

end WorldsX

/-! ## A small concrete world

A filesystem of folders and file sizes with scripted collaborators, on which
the task is run at concrete inputs. -/

/-- A filesystem: the folders that exist and the files with their sizes. -/
structure DemoFs where
  dirs : List String
  files : List (String × Int)
  deriving DecidableEq, Repr

/-- How the scripted collaborators behave in a run. -/
structure DemoScript where
  /-- Whether `mkpath` succeeds. -/
  canCreate : Bool
  /-- The message `unzip` throws, if it throws. -/
  unzipFailure : Option String
  /-- What the process runner returns or throws. -/
  cleanerOutput : Except String String
  /-- The message `zip` throws, if it throws. -/
  zipFailure : Option String
  deriving DecidableEq, Repr

/-- The size of a file, `0` when there is none. -/
def DemoFs.sizeOf (w : DemoFs) (path : String) : Int :=
  ((w.files.find? (fun f => f.1 == path)).map Prod.snd).getD 0

/-- Write a file of the given size, replacing an older one. -/
def DemoFs.write (w : DemoFs) (path : String) (n : Int) : DemoFs :=
  { w with files := (path, n) :: w.files.filter (fun f => f.1 != path) }

/-- The folder part of a path: what precedes its last `/`. -/
def demoFolder (path : String) : String :=
  String.mk (path.data.take (path.data.length - (QFileInfo.fileName path).data.length - 1))

/-- Scripted collaborators over `DemoFs`.  Decompression doubles the size,
the cleaner writes its last argument at 40 bytes, compression writes 7
bytes; the ratio is kept as the pair of sizes it was computed from. -/
def demoServices (sc : DemoScript) : Services DemoFs (Int × Int) where
  absolutePath := fun _ path => demoFolder path
  pathExists := fun w path => w.dirs.contains path || w.files.any (fun f => f.1 == path)
  mkpath := fun w dirPath =>
    if sc.canCreate then (true, { w with dirs := dirPath :: w.dirs }) else (false, w)
  size := DemoFs.sizeOf
  remove := fun w fileName =>
    (w.files.any (fun f => f.1 == fileName),
      { w with files := w.files.filter (fun f => f.1 != fileName) })
  unzip := fun w inPath outPath =>
    match sc.unzipFailure with
    | none => (none, w.write outPath (2 * w.sizeOf inPath))
    | some e => (some e, w)
  zip := fun w _ _ _ outFile =>
    match sc.zipFailure with
    | none => (none, w.write outFile 7)
    | some e => (some e, w)
  run := fun w _ args _ _ =>
    match sc.cleanerOutput with
    | .ok text => (.ok text, w.write (args.getLastD "") 40)
    | .error e => (.error e, w)
  cleanerRatio := fun inSize outSize => (inSize, outSize)
  cleanerName := "svgcleaner"
  tr := fun sourceText => sourceText

/-- A world with the folders `/in` and `/out` and two input files. -/
def demoWorld : DemoFs :=
  { dirs := ["/in", "/out"], files := [("/in/a.svg", 100), ("/in/b.svgz", 30)] }

/-- A script in which every collaborator succeeds and the cleaner prints
`text`. -/
def demoOk (text : String) : DemoScript :=
  { canCreate := true, unzipFailure := none, cleanerOutput := .ok text, zipFailure := none }

/-- Clean `/in/a.svg` into `/out/a.svg`, no compressor. -/
def demoConfig : Config :=
  { inputPath := "/in/a.svg", outputPath := "/out/a.svg", args := ["--indent", "2"],
    treeItem := 7, compressorType := Compressor.Type.None, compressOnlySvgz := false,
    compressionLevel := 5 }

/-- Clean `/in/b.svgz` into `/out/b.svg`, recompressing SVGZ inputs only. -/
def demoConfigZ : Config :=
  { inputPath := "/in/b.svgz", outputPath := "/out/b.svg", args := [],
    treeItem := 9, compressorType := Compressor.Type.FormatA, compressOnlySvgz := true,
    compressionLevel := 9 }

/-- Overwrite mode: clean `/in/a.svg` in place. -/
def demoOverwrite : Config :=
  { inputPath := "/in/a.svg", outputPath := "/in/a.svg", args := [],
    treeItem := 3, compressorType := Compressor.Type.None, compressOnlySvgz := false,
    compressionLevel := 5 }

/-- Clean `/in/b.svgz` into `/new/x/b.svg`, whose folder does not exist. -/
def demoConfigNew : Config :=
  { inputPath := "/in/b.svgz", outputPath := "/new/x/b.svg", args := [],
    treeItem := 9, compressorType := Compressor.Type.FormatA, compressOnlySvgz := true,
    compressionLevel := 9 }

/-- A script in which `mkpath` fails. -/
def demoNoFolder : DemoScript :=
  { canCreate := false, unzipFailure := none, cleanerOutput := .ok "", zipFailure := none }

/-- A script in which the process runner throws `"timeout"`. -/
def demoTimeout : DemoScript :=
  { canCreate := true, unzipFailure := none, cleanerOutput := .error "timeout",
    zipFailure := none }

/-- The scripted collaborators of `demoServices`, all succeeding except the
process runner, which returns or throws `runner`. -/
def demoServicesX (runner : Except Thrown String) : ServicesX DemoFs (Int × Int) where
  absolutePath := fun _ path => demoFolder path
  pathExists := fun w path => w.dirs.contains path || w.files.any (fun f => f.1 == path)
  mkpath := fun w dirPath => (true, { w with dirs := dirPath :: w.dirs })
  size := DemoFs.sizeOf
  remove := fun w fileName =>
    (w.files.any (fun f => f.1 == fileName),
      { w with files := w.files.filter (fun f => f.1 != fileName) })
  unzip := fun w inPath outPath => (none, w.write outPath (2 * w.sizeOf inPath))
  zip := fun w _ _ _ outFile => (none, w.write outFile 7)
  run := fun w _ args _ _ =>
    match runner with
    | .ok text => (.ok text, w.write (args.getLastD "") 40)
    | .error t => (.error t, w)
  cleanerRatio := fun inSize outSize => (inSize, outSize)
  cleanerName := "svgcleaner"
  tr := fun sourceText => sourceText

/-! ## Every run follows one of the paths -/

section PathLemmas

variable {σ ρ : Type}

/-- Lines 47-54 either throw or leave the folder ready. -/
theorem folder_cases (sv : Services σ ρ) (config : Config) (w : σ) :
    (∃ w1, sv.pathExists w (sv.absolutePath w config.outputPath) = false ∧
      sv.mkpath w (sv.absolutePath w config.outputPath) = (false, w1)) ∨
    ∃ w1 t1, FolderReady sv config w w1 t1 := by
  by_cases hex : sv.pathExists w (sv.absolutePath w config.outputPath) = true
  · exact Or.inr ⟨w, [], .present hex⟩
  · rw [Bool.not_eq_true] at hex
    rcases hmk : sv.mkpath w (sv.absolutePath w config.outputPath) with ⟨flag, w1⟩
    cases flag
    · exact Or.inl ⟨w1, hex, rfl⟩
    · exact Or.inr ⟨w1, _, .created w1 hex hmk⟩

/-- Lines 59-66 either throw or leave the input unzipped. -/
theorem unzip_cases (sv : Services σ ρ) (config : Config) (w1 : σ) :
    (∃ m w2, config.isInputFileCompressed = true ∧
      sv.unzip w1 config.inputPath config.outputPath = (some m, w2)) ∨
    ∃ w2 t2, Unzipped sv config w1 w2 t2 := by
  by_cases hz : config.isInputFileCompressed = true
  · rcases hu : sv.unzip w1 config.inputPath config.outputPath with ⟨f, w2⟩
    cases f with
    | none => exact Or.inr ⟨w2, _, .unzipped w2 hz hu⟩
    | some m => exact Or.inl ⟨m, w2, hz, rfl⟩
  · rw [Bool.not_eq_true] at hz
    exact Or.inr ⟨w1, [], .plain hz⟩

open TaskM in
/-- Every call of `cleanFile` on an asserted config returns a run, and the
run is the one of a path. -/
theorem cleanFile_path (sv : Services σ ρ) (config : Config) (w : σ)
    (hpre : config.asserted = true) :
    ∃ r, cleanFile sv config w = some r ∧ Path sv config w r := by
  cases hc : cleanFile sv config w with
  | none => simp [cleanFile, hpre] at hc; split at hc <;> simp at hc
  | some r =>
    refine ⟨r, rfl, ?_⟩
    simp only [cleanFile, hpre, if_true] at hc
    unfold _cleanFile at hc
    simp only [bind, andThen, pure, ret, throw, raise, throwThe, MonadExceptOf.throw,
      TaskM.absolutePath, TaskM.pathExists, TaskM.size, TaskM.mkpath, TaskM.remove,
      TaskM.unzip, TaskM.zip, TaskM.run, ite_apply] at hc
    rcases folder_cases sv config w with ⟨w1, hex, hmk⟩ | ⟨w1, t1, hF⟩
    · simp [hex, hmk] at hc
      subst hc
      exact Path.folderFailed w1 hex hmk rfl rfl rfl
    rcases unzip_cases sv config w1 with ⟨m, w2, hz, hu⟩ | ⟨w2, t2, hU⟩
    · have hF2 := hF
      have hz2 := hz
      simp only [Config.isInputFileCompressed] at hz2
      cases hF <;> simp [*] at hc <;> subst hc <;>
        exact Path.unzipFailed _ w2 _ m hF2 hz hu rfl rfl rfl
    rcases hrun : sv.run w2 sv.cleanerName (cleanerArgs config) 300000 true with ⟨res, w3⟩
    have hrun2 := hrun
    simp only [cleanerArgs, Config.isInputFileCompressed] at hrun2
    have hF2 := hF
    have hU2 := hU
    cases res with
    | error m =>
      cases hF <;> cases hU <;> simp only [Config.isInputFileCompressed] at * <;>
        simp [*] at hc hrun2 <;> simp [*] at hc <;> subst hc <;>
        refine Path.runFailed _ _ w3 _ _ m hF2 hU2 hrun ?_ ?_ ?_ <;>
        simp [runCall, cleanerArgs, Config.isInputFileCompressed, *]
    | ok text =>
      by_cases herr : QString.contains (QString.trimmed text) "Error:" = true
      · cases hF <;> cases hU <;> simp only [Config.isInputFileCompressed] at * <;>
          simp [*] at hc hrun2 <;> simp [*] at hc <;> subst hc <;>
          refine Path.errorMarker _ _ w3 _ _ text hF2 hU2 hrun herr ?_ ?_ ?_ <;>
          simp [runCall, cleanerArgs, Config.isInputFileCompressed, *]
      · rw [Bool.not_eq_true] at herr
        rcases hzip : sv.zip w3 config.compressorType config.compressionLevel config.outputPath
          (config.outputPath ++ "z") with ⟨zf, w4⟩
        by_cases hty : config.compressorType = Compressor.Type.None <;>
          cases hon : config.compressOnlySvgz <;>
          cases hwarn : QString.contains (QString.trimmed text) "Warning:" <;>
          cases hF <;> cases hU <;> simp only [Config.isInputFileCompressed] at * <;>
          simp [*] at hrun2 <;>
          first
          | (have hsc : shouldCompress config = false := by
               simp [shouldCompress, Config.isInputFileCompressed, *]
             simp [*] at hc
             subst hc
             refine Path.cleaned _ _ w3 _ _ text hF2 hU2 hrun herr hsc ?_ ?_ ?_ <;>
               simp [runCall, cleanerArgs, report, Config.isInputFileCompressed, *])
          | (have hsc : shouldCompress config = true := by
               simp [shouldCompress, Config.isInputFileCompressed, *]
             cases zf with
             | none =>
               simp [*] at hc
               subst hc
               refine Path.compressed _ _ w3 w4 _ _ text hF2 hU2 hrun herr hsc hzip ?_ ?_ ?_ <;>
                 simp [runCall, cleanerArgs, zipCall, report, Config.isInputFileCompressed, *]
             | some m =>
               simp [*] at hc
               subst hc
               refine Path.zipFailed _ _ w3 w4 _ _ text m hF2 hU2 hrun herr hsc hzip ?_ ?_ ?_ <;>
                 simp [runCall, cleanerArgs, zipCall, Config.isInputFileCompressed, *])

end PathLemmas

/-! ## The claims -/

section Claims

variable {σ ρ : Type}

/-- Claim C1: when the output folder exists or is created, decompression (if
any) does not throw, and the process runner returns a text whose trimmed form
contains `"Error:"`, `cleanFile` returns `Error` with exactly the trimmed
text as its message (whether or not the text also contains `"Warning:"`);
the runner was called with that result, and no `zip` call is made. -/
theorem cleanFile_error_marker (sv : Services σ ρ) (config : Config) (w : σ) (text : String)
    (hpre : config.asserted = true)
    (hfolder : sv.pathExists w (sv.absolutePath w config.outputPath) = true ∨
      (sv.mkpath w (sv.absolutePath w config.outputPath)).1 = true)
    (hunzip : config.isInputFileCompressed = true →
      (sv.unzip (folderWorld sv config w) config.inputPath config.outputPath).1 = none)
    (hrun : (sv.run (unzipWorld sv config w) sv.cleanerName (cleanerArgs config) 300000 true).1 =
      .ok text)
    (herr : QString.contains (QString.trimmed text) "Error:" = true) :
    ∃ r, cleanFile sv config w = some r ∧
      r.output = Output.error (QString.trimmed text) config.treeItem ∧
      (∀ c ∈ r.trace, c.isZip = false) ∧
      Call.run sv.cleanerName (cleanerArgs config) 300000 true (.ok text) ∈ r.trace := by
  obtain ⟨r, hr, hp⟩ := cleanFile_path sv config w hpre
  refine ⟨r, hr, ?_⟩
  cases hp <;> (try cases ‹FolderReady _ _ _ _ _›) <;> (try cases ‹Unzipped _ _ _ _ _›) <;>
    simp_all [runCall, zipCall, Call.isZip, folderWorld, unzipWorld]

/-- The value of `shouldCompress` at line 104 is the condition of the spec. -/
theorem shouldCompress_iff (config : Config) :
    shouldCompress config = true ↔
      (config.compressorType ≠ Compressor.Type.None ∧
        (config.compressOnlySvgz = false ∨ config.isInputFileCompressed = true)) := by
  unfold shouldCompress
  cases config.compressOnlySvgz <;> cases config.isInputFileCompressed <;>
    by_cases h : config.compressorType = Compressor.Type.None <;> simp [h]

/-- Claim C2: when the output folder exists or is created, no collaborator
throws (`unzip`, the runner returning `text`, `zip` where it is called) and
the trimmed text does not contain `"Error:"`, `cleanFile` returns `Warning`
(with the `OkData` and the trimmed text as message) exactly when the trimmed
text contains `"Warning:"`, and `Ok` (with the `OkData`) exactly when it does
not; an empty text gives `Ok`. -/
theorem cleanFile_warning_or_ok (sv : Services σ ρ) (config : Config) (w : σ) (text : String)
    (hpre : config.asserted = true)
    (hfolder : sv.pathExists w (sv.absolutePath w config.outputPath) = true ∨
      (sv.mkpath w (sv.absolutePath w config.outputPath)).1 = true)
    (hunzip : config.isInputFileCompressed = true →
      (sv.unzip (folderWorld sv config w) config.inputPath config.outputPath).1 = none)
    (hrun : (sv.run (unzipWorld sv config w) sv.cleanerName (cleanerArgs config) 300000 true).1 =
      .ok text)
    (hzip : shouldCompress config = true →
      (sv.zip (runWorld sv config w) config.compressorType config.compressionLevel
        config.outputPath (config.outputPath ++ "z")).1 = none) :
    ∃ r, cleanFile sv config w = some r ∧
      (QString.contains (QString.trimmed text) "Error:" = false →
        ∃ okData,
          (r.output = Output.warning okData (QString.trimmed text) config.treeItem ↔
            QString.contains (QString.trimmed text) "Warning:" = true) ∧
          (r.output = Output.ok okData config.treeItem ↔
            QString.contains (QString.trimmed text) "Warning:" = false)) ∧
      (text = "" → ∃ okData, r.output = Output.ok okData config.treeItem) := by
  obtain ⟨r, hr, hp⟩ := cleanFile_path sv config w hpre
  refine ⟨r, hr, fun herr => ?_, fun hempty => ?_⟩
  · cases hp <;> (try cases ‹FolderReady _ _ _ _ _›) <;> (try cases ‹Unzipped _ _ _ _ _›) <;>
      simp_all [runCall, zipCall, report, folderWorld, unzipWorld, runWorld] <;>
      cases hwarn : QString.contains (QString.trimmed text) "Warning:" <;>
      simp_all
  · subst hempty
    have hE : QString.contains (QString.trimmed "") "Error:" = false := by decide
    have hW : QString.contains (QString.trimmed "") "Warning:" = false := by decide
    cases hp <;> (try cases ‹FolderReady _ _ _ _ _›) <;> (try cases ‹Unzipped _ _ _ _ _›) <;>
      simp_all [runCall, zipCall, report, folderWorld, unzipWorld, runWorld]

/-- Claim C3: in a run that reaches the compression step (the runner returned a
text that, trimmed, has no `"Error:"`), `zip` is called if and only if
`compressorType` is not `None` and (`compressOnlySvgz` is false or the input
was detected as compressed); it is then called exactly once, with
`compressionLevel`, from `outputPath` to `outputPath` with `"z"` appended. -/
theorem cleanFile_zip_iff (sv : Services σ ρ) (config : Config) (w : σ)
    (hpre : config.asserted = true) :
    ∃ r, cleanFile sv config w = some r ∧
      ∀ name args timeout mergeChannels text,
        Call.run name args timeout mergeChannels (.ok text) ∈ r.trace →
        QString.contains (QString.trimmed text) "Error:" = false →
        ((∃ c ∈ r.trace, c.isZip = true) ↔
          (config.compressorType ≠ Compressor.Type.None ∧
            (config.compressOnlySvgz = false ∨ config.isInputFileCompressed = true))) ∧
        ∃ failure, r.trace.filter Call.isZip =
          if config.compressorType ≠ Compressor.Type.None ∧
              (config.compressOnlySvgz = false ∨ config.isInputFileCompressed = true) then
            [Call.zip config.compressorType config.compressionLevel config.outputPath
              (config.outputPath ++ "z") failure]
          else [] := by
  obtain ⟨r, hr, hp⟩ := cleanFile_path sv config w hpre
  refine ⟨r, hr, ?_⟩
  intro name args timeout mergeChannels text hmem herr
  have hiff := shouldCompress_iff config
  cases hp <;> (try cases ‹FolderReady _ _ _ _ _›) <;> (try cases ‹Unzipped _ _ _ _ _›) <;>
    simp_all [runCall, zipCall, Call.isZip]

/-- Claim C4: when `cleanFile` returns `Ok` or `Warning`, the reported `outputPath`
is `config.outputPath` with `"z"` appended when `zip` was called and
`config.outputPath` otherwise; `outSize` is the size of the file at the
reported path in the final world; `ratio` is `cleanerRatio` of the size of
the file at `config.inputPath` when line 57 runs (after the folder step,
before decompression and cleaning) and `outSize`.  That size is the one on
entry when the folder was there, or when creating the folder leaves the size
of the input file as it was. -/
theorem cleanFile_okData (sv : Services σ ρ) (config : Config) (w : σ)
    (hpre : config.asserted = true) :
    ∃ r, cleanFile sv config w = some r ∧
      ∀ okData, r.output.okData? = some okData →
        okData.outputPath =
          (if r.trace.any Call.isZip then config.outputPath ++ "z" else config.outputPath) ∧
        okData.outSize = sv.size r.world okData.outputPath ∧
        okData.ratio = sv.cleanerRatio
          (sv.size
            (if sv.pathExists w (sv.absolutePath w config.outputPath) then w
              else (sv.mkpath w (sv.absolutePath w config.outputPath)).2)
            config.inputPath)
          okData.outSize ∧
        ((sv.pathExists w (sv.absolutePath w config.outputPath) = false →
            sv.size (sv.mkpath w (sv.absolutePath w config.outputPath)).2 config.inputPath =
              sv.size w config.inputPath) →
          okData.ratio = sv.cleanerRatio (sv.size w config.inputPath) okData.outSize) := by
  obtain ⟨r, hr, hp⟩ := cleanFile_path sv config w hpre
  refine ⟨r, hr, ?_⟩
  intro okData hd
  cases hp <;> (try cases ‹FolderReady _ _ _ _ _›) <;> (try cases ‹Unzipped _ _ _ _ _›) <;>
    simp_all [runCall, zipCall, Call.isZip, Output.okData?, report] <;>
    cases hwarn : QString.contains (QString.trimmed ‹String›) "Warning:" <;>
    simp_all [Output.okData?] <;> subst hd <;> simp_all

/-- The message of line 52 for the untranslated source text. -/
theorem arg_folder_message (dir : String) :
    QString.arg "Failed to create an output folder:\n'%1'." dir =
      "Failed to create an output folder:\n'" ++ dir ++ "'." := by
  apply String.ext
  simp [QString.arg, argChars, String.data_append]

/-- Claim C5 (amended): when the folder of the output file does not exist and
cannot be created, `cleanFile` returns `Error` whose message is the
translation of `"Failed to create an output folder:\n'%1'."` with `%1`
replaced by the absolute path of the folder; untranslated, that is
`"Failed to create an output folder:"`, a line break, and the folder in
single quotes followed by a full stop.  The only collaborator call of the
run is the failed `mkpath`: neither `unzip` nor the process runner is
called. -/
theorem cleanFile_folder_failure (sv : Services σ ρ) (config : Config) (w : σ)
    (hpre : config.asserted = true)
    (hex : sv.pathExists w (sv.absolutePath w config.outputPath) = false)
    (hmk : (sv.mkpath w (sv.absolutePath w config.outputPath)).1 = false) :
    ∃ r, cleanFile sv config w = some r ∧
      r.output = Output.error
        (QString.arg (sv.tr "Failed to create an output folder:\n'%1'.")
          (sv.absolutePath w config.outputPath)) config.treeItem ∧
      (sv.tr "Failed to create an output folder:\n'%1'." =
          "Failed to create an output folder:\n'%1'." →
        r.output = Output.error
          ("Failed to create an output folder:\n'" ++ sv.absolutePath w config.outputPath ++ "'.")
          config.treeItem) ∧
      r.trace = [Call.mkpath (sv.absolutePath w config.outputPath) false] ∧
      ∀ c ∈ r.trace, c.isUnzip = false ∧ c.isRun = false := by
  obtain ⟨r, hr, hp⟩ := cleanFile_path sv config w hpre
  refine ⟨r, hr, ?_⟩
  have hmsg := arg_folder_message (sv.absolutePath w config.outputPath)
  cases hp <;> (try cases ‹FolderReady _ _ _ _ _›) <;>
    simp_all [Call.isUnzip, Call.isRun]

/-- What `trimmedChars` removes is whitespace at both ends, and what it
leaves neither starts nor ends with whitespace. -/
theorem trimmedChars_spec (cs : List Char) :
    ∃ pre post, cs = pre ++ trimmedChars cs ++ post ∧
      (∀ c ∈ pre, QChar.isSpace c = true) ∧ (∀ c ∈ post, QChar.isSpace c = true) ∧
      (∀ c, (trimmedChars cs).head? = some c → QChar.isSpace c = false) ∧
      (∀ c, (trimmedChars cs).getLast? = some c → QChar.isSpace c = false) := by
  have hsplit : cs.dropWhile QChar.isSpace = trimmedChars cs ++
      (((cs.dropWhile QChar.isSpace).reverse).takeWhile QChar.isSpace).reverse := by
    unfold trimmedChars
    rw [← List.reverse_append, List.takeWhile_append_dropWhile, List.reverse_reverse]
  have hlast : ∀ c, (trimmedChars cs).getLast? = some c → QChar.isSpace c = false := by
    intro c hc
    unfold trimmedChars at hc
    rw [List.getLast?_reverse] at hc
    have h := List.head?_dropWhile_not QChar.isSpace (cs.dropWhile QChar.isSpace).reverse
    rw [hc] at h
    simpa using h
  refine ⟨cs.takeWhile QChar.isSpace,
    (((cs.dropWhile QChar.isSpace).reverse).takeWhile QChar.isSpace).reverse, ?_, ?_, ?_, ?_, hlast⟩
  · rw [List.append_assoc, ← hsplit, List.takeWhile_append_dropWhile]
  · intro c hc
    exact (List.mem_takeWhile_imp hc)
  · intro c hc
    exact (List.mem_takeWhile_imp (List.mem_reverse.mp hc))
  · intro c hc
    have hne : trimmedChars cs ≠ [] := by
      intro h
      rw [h] at hc
      simp at hc
    have h := List.head?_dropWhile_not QChar.isSpace cs
    rw [hsplit, List.head?_append_of_ne_nil _ hne, hc] at h
    simpa using h

/-- Claim C7: when the output folder is available and decompression, if any, did
not fail, the process runner is called exactly once, with `Cleaner::Name`,
the arguments `config.args` followed by `"--quiet"`, the input file
(`config.outputPath` for a compressed input, `config.inputPath` otherwise)
and `config.outputPath`, and the timeout 300000.  The text the output is
classified by, and the message of an `Error` or `Warning` output, is the
runner's text trimmed; trimming removes whitespace at both ends only. -/
theorem cleanFile_runner_call (sv : Services σ ρ) (config : Config) (w : σ)
    (hpre : config.asserted = true)
    (hfolder : sv.pathExists w (sv.absolutePath w config.outputPath) = true ∨
      (sv.mkpath w (sv.absolutePath w config.outputPath)).1 = true) :
    ∃ r, cleanFile sv config w = some r ∧
      ((∀ c ∈ r.trace, c.isUnzip = true → c.failure = none) →
        ∃ result, r.trace.filter Call.isRun =
          [Call.run sv.cleanerName
            (config.args ++ ["--quiet",
              if config.isInputFileCompressed then config.outputPath else config.inputPath,
              config.outputPath])
            300000 true result]) ∧
      (∀ name args timeout mergeChannels text,
        Call.run name args timeout mergeChannels (.ok text) ∈ r.trace →
        (QString.contains (QString.trimmed text) "Error:" = true →
          r.output = Output.error (QString.trimmed text) config.treeItem) ∧
        (∀ okData msg t, r.output = Output.warning okData msg t →
          msg = QString.trimmed text ∧
          QString.contains (QString.trimmed text) "Warning:" = true ∧
          QString.contains (QString.trimmed text) "Error:" = false) ∧
        (∀ okData t, r.output = Output.ok okData t →
          QString.contains (QString.trimmed text) "Warning:" = false ∧
          QString.contains (QString.trimmed text) "Error:" = false) ∧
        ∃ pre post, text.data = pre ++ (QString.trimmed text).data ++ post ∧
          (∀ c ∈ pre, QChar.isSpace c = true) ∧ (∀ c ∈ post, QChar.isSpace c = true) ∧
          (∀ c, (QString.trimmed text).data.head? = some c → QChar.isSpace c = false) ∧
          (∀ c, (QString.trimmed text).data.getLast? = some c → QChar.isSpace c = false)) := by
  obtain ⟨r, hr, hp⟩ := cleanFile_path sv config w hpre
  refine ⟨r, hr, ?_, ?_⟩
  · cases hp <;> (try cases ‹FolderReady _ _ _ _ _›) <;> (try cases ‹Unzipped _ _ _ _ _›) <;>
      simp_all [runCall, zipCall, cleanerArgs, Call.isRun, Call.isUnzip, Call.failure]
  · intro name args timeout mergeChannels text hmem
    refine ⟨?_, ?_, ?_, trimmedChars_spec text.data⟩
    · intro herr
      cases hp <;> (try cases ‹FolderReady _ _ _ _ _›) <;> (try cases ‹Unzipped _ _ _ _ _›) <;>
        simp_all [runCall, zipCall]
    · intro okData msg t hout
      cases hp <;> (try cases ‹FolderReady _ _ _ _ _›) <;> (try cases ‹Unzipped _ _ _ _ _›) <;>
        simp_all [runCall, zipCall, report] <;>
        cases hwarn : QString.contains (QString.trimmed text) "Warning:" <;> simp_all
    · intro okData t hout
      cases hp <;> (try cases ‹FolderReady _ _ _ _ _›) <;> (try cases ‹Unzipped _ _ _ _ _›) <;>
        simp_all [runCall, zipCall, report] <;>
        cases hwarn : QString.contains (QString.trimmed text) "Warning:" <;> simp_all

/-- After the last separator comes what follows it, when that part has no
separator of its own. -/
theorem afterLast_append (sep : Char) (a b : List Char) (hb : sep ∉ b) :
    afterLast sep (a ++ sep :: b) = some b := by
  have hnone : ∀ l : List Char, sep ∉ l → afterLast sep l = none := by
    intro l
    induction l with
    | nil => intro _; rfl
    | cons c l ih =>
      intro h
      have hc : ¬ c = sep := fun e => h (by simp [e])
      have hl : sep ∉ l := fun e => h (List.mem_cons_of_mem _ e)
      simp [afterLast, ih hl, hc]
  induction a with
  | nil => simp [afterLast, hnone b hb]
  | cons c a ih => simp [afterLast, ih]

/-- The model of `QFileInfo::suffix` gives the text after the last dot of
the file name. -/
theorem suffix_spec (dir base ext : List Char) (h1 : '/' ∉ base) (h2 : '/' ∉ ext)
    (h3 : '.' ∉ ext) :
    QFileInfo.suffix (String.mk (dir ++ '/' :: (base ++ '.' :: ext))) = String.mk ext := by
  have hname : '/' ∉ base ++ '.' :: ext := by
    simp [h1, h2]
  simp [QFileInfo.suffix, QFileInfo.fileName, afterLast_append '/' dir _ hname,
    afterLast_append '.' base ext h3]

/-- Claim C8: the input is treated as compressed if and only if its suffix (the
text after the last dot of the file name), lower-cased, is `"svgz"`:
`a.SVGZ` is compressed, `a.svg`, `a.svgz.bak` and `a.gz` are not.  When the
output folder is available, `unzip` is called exactly when the input is
compressed, once, from `config.inputPath` into `config.outputPath`, and never
after the process runner. -/
theorem cleanFile_unzip_iff (sv : Services σ ρ) (config : Config) (w : σ)
    (hpre : config.asserted = true)
    (hfolder : sv.pathExists w (sv.absolutePath w config.outputPath) = true ∨
      (sv.mkpath w (sv.absolutePath w config.outputPath)).1 = true) :
    (config.isInputFileCompressed = true ↔
      QString.toLower (QFileInfo.suffix config.inputPath) = "svgz") ∧
    (∀ dir base ext : List Char, '/' ∉ base → '/' ∉ ext → '.' ∉ ext →
      QFileInfo.suffix (String.mk (dir ++ '/' :: (base ++ '.' :: ext))) = String.mk ext) ∧
    QString.toLower (QFileInfo.suffix "a.SVGZ") = "svgz" ∧
    QString.toLower (QFileInfo.suffix "a.svg") ≠ "svgz" ∧
    QString.toLower (QFileInfo.suffix "a.svgz.bak") ≠ "svgz" ∧
    QString.toLower (QFileInfo.suffix "a.gz") ≠ "svgz" ∧
    ∃ r, cleanFile sv config w = some r ∧
      (∃ failure, r.trace.filter Call.isUnzip =
        if config.isInputFileCompressed then
          [Call.unzip config.inputPath config.outputPath failure]
        else []) ∧
      noneAfter Call.isUnzip Call.isRun r.trace = true := by
  refine ⟨by simp [Config.isInputFileCompressed], suffix_spec, by decide, by decide,
    by decide, by decide, ?_⟩
  obtain ⟨r, hr, hp⟩ := cleanFile_path sv config w hpre
  refine ⟨r, hr, ?_⟩
  cases hp <;> (try cases ‹FolderReady _ _ _ _ _›) <;> (try cases ‹Unzipped _ _ _ _ _›) <;>
    simp_all [runCall, zipCall, Call.isRun, Call.isUnzip, noneAfter]

/-- Claim C9: when the output folder does not exist and can be created, the
first collaborator call of the run is the `mkpath` of that folder, and it is
the only `mkpath`: it precedes every `unzip` and every process-runner call.
When the folder exists, no `mkpath` call is made. -/
theorem cleanFile_mkpath_first (sv : Services σ ρ) (config : Config) (w : σ)
    (hpre : config.asserted = true) :
    ∃ r, cleanFile sv config w = some r ∧
      (sv.pathExists w (sv.absolutePath w config.outputPath) = false →
        (sv.mkpath w (sv.absolutePath w config.outputPath)).1 = true →
        ∃ rest, r.trace = Call.mkpath (sv.absolutePath w config.outputPath) true :: rest ∧
          ∀ c ∈ rest, c.isMkpath = false) ∧
      (sv.pathExists w (sv.absolutePath w config.outputPath) = true →
        ∀ c ∈ r.trace, c.isMkpath = false) ∧
      noneAfter Call.isMkpath (fun c => c.isUnzip || c.isRun) r.trace = true := by
  obtain ⟨r, hr, hp⟩ := cleanFile_path sv config w hpre
  refine ⟨r, hr, ?_⟩
  cases hp <;> (try cases ‹FolderReady _ _ _ _ _›) <;> (try cases ‹Unzipped _ _ _ _ _›) <;>
    simp_all [runCall, zipCall, Call.isRun, Call.isUnzip, Call.isMkpath, noneAfter]

/-- Claim C10: a `remove` call is made if and only if the input was detected as
compressed and the runner returned a text that, trimmed, contains
`"Error:"`; it is then made once, on `config.outputPath`.  In every other
run the trace has no `remove` call: none for an uncompressed input, and none
in a run that returns `Ok` or `Warning`, where the cleaned file and its
compressed sibling are both kept. -/
theorem cleanFile_remove_iff (sv : Services σ ρ) (config : Config) (w : σ)
    (hpre : config.asserted = true) :
    ∃ r, cleanFile sv config w = some r ∧
      ((∃ c ∈ r.trace, c.isRemove = true) ↔
        (config.isInputFileCompressed = true ∧
          ∃ name args timeout mergeChannels text,
            Call.run name args timeout mergeChannels (.ok text) ∈ r.trace ∧
            QString.contains (QString.trimmed text) "Error:" = true)) ∧
      (∃ flag, r.trace.filter Call.isRemove = [Call.remove config.outputPath flag] ∨
        r.trace.filter Call.isRemove = []) ∧
      (∀ c ∈ r.trace, c.isRemove = true → ∃ flag, c = Call.remove config.outputPath flag) ∧
      (config.isInputFileCompressed = false → ∀ c ∈ r.trace, c.isRemove = false) ∧
      (∀ okData, r.output.okData? = some okData → ∀ c ∈ r.trace, c.isRemove = false) := by
  obtain ⟨r, hr, hp⟩ := cleanFile_path sv config w hpre
  refine ⟨r, hr, ?_⟩
  cases hp <;> (try cases ‹FolderReady _ _ _ _ _›) <;> (try cases ‹Unzipped _ _ _ _ _›) <;>
    simp_all [runCall, zipCall, Call.isRemove, Output.okData?] <;>
    exact ⟨_, _, _, _, ⟨rfl, rfl, rfl, rfl⟩, by assumption⟩

open TaskMX in
/-- The outcomes of `cleanFileX`, step by step. -/
theorem cleanFileX_eq (sx : ServicesX σ ρ) (config : Config) (w : σ)
    (hpre : config.asserted = true) :
    cleanFileX sx config w =
      if sx.pathExists w (sx.absolutePath w config.outputPath) = true then
        afterFolderX sx config w
      else if (sx.mkpath w (sx.absolutePath w config.outputPath)).1 = true then
        afterFolderX sx config (sx.mkpath w (sx.absolutePath w config.outputPath)).2
      else
        .returned
          (Output.error
            (QString.arg (sx.tr "Failed to create an output folder:\n'%1'.")
              (sx.absolutePath w config.outputPath)) config.treeItem)
          (sx.mkpath w (sx.absolutePath w config.outputPath)).2 := by
  simp only [cleanFileX, hpre, if_true]
  unfold _cleanFileX
  simp only [bind, andThen, pure, ret, throw, raise, throwThe, MonadExceptOf.throw,
    TaskMX.absolutePath, TaskMX.pathExists, TaskMX.size, TaskMX.mkpath, TaskMX.remove,
    TaskMX.unzip, TaskMX.zip, TaskMX.run, ite_apply]
  by_cases hex : sx.pathExists w (sx.absolutePath w config.outputPath) = true
  · simp only [hex, Bool.not_true, Bool.false_eq_true, if_false, if_true]
    simp only [afterFolderX, afterRunX, caught, reportX, shouldCompress, cleanerArgs,
      Config.isInputFileCompressed]
    by_cases hz : (QString.toLower (QFileInfo.suffix config.inputPath) == "svgz") = true
    · simp only [hz, if_true]
      rcases hu : sx.unzip w config.inputPath config.outputPath with ⟨uf, w2⟩
      rcases uf with _ | (_ | _)
      · simp only []
        rcases hrun : sx.run w2 sx.cleanerName
          (config.args ++ ["--quiet", config.outputPath, config.outputPath]) 300000 true
          with ⟨res, w3⟩
        rcases res with (_ | _) | text
        · simp [hrun]
        · simp [hrun]
        · simp only []
          by_cases herr : QString.contains (QString.trimmed text) "Error:" = true
          · simp [herr, hrun]
          · simp only [herr, if_false]
            by_cases hty : config.compressorType = Compressor.Type.None <;>
              cases hon : config.compressOnlySvgz <;>
              rcases hzip : sx.zip w3 config.compressorType config.compressionLevel
                config.outputPath (config.outputPath ++ "z") with ⟨zf, w4⟩ <;>
              rcases zf with _ | (_ | _) <;>
              cases hwarn : QString.contains (QString.trimmed text) "Warning:" <;>
              simp [*]
      · simp
      · simp
    · simp only [hz, if_false]
      rcases hrun : sx.run w sx.cleanerName
        (config.args ++ ["--quiet", config.inputPath, config.outputPath]) 300000 true
        with ⟨res, w3⟩
      rcases res with (_ | _) | text
      · simp [hrun]
      · simp [hrun]
      · simp only []
        by_cases herr : QString.contains (QString.trimmed text) "Error:" = true
        · simp [herr, hrun]
        · simp only [herr, if_false]
          by_cases hty : config.compressorType = Compressor.Type.None <;>
            cases hon : config.compressOnlySvgz <;>
            rcases hzip : sx.zip w3 config.compressorType config.compressionLevel
              config.outputPath (config.outputPath ++ "z") with ⟨zf, w4⟩ <;>
            rcases zf with _ | (_ | _) <;>
            cases hwarn : QString.contains (QString.trimmed text) "Warning:" <;>
            simp [*]
  · rw [Bool.not_eq_true] at hex
    rcases hmk : sx.mkpath w (sx.absolutePath w config.outputPath) with ⟨flag, w1⟩
    cases flag
    · simp [hex]
    · simp only [hex, Bool.not_false, Bool.not_true, Bool.false_eq_true, if_false, if_true]
      simp only [afterFolderX, afterRunX, caught, reportX, shouldCompress, cleanerArgs,
        Config.isInputFileCompressed]
      by_cases hz : (QString.toLower (QFileInfo.suffix config.inputPath) == "svgz") = true
      · simp only [hz, if_true]
        rcases hu : sx.unzip w1 config.inputPath config.outputPath with ⟨uf, w2⟩
        rcases uf with _ | (_ | _)
        · simp only []
          rcases hrun : sx.run w2 sx.cleanerName
            (config.args ++ ["--quiet", config.outputPath, config.outputPath]) 300000 true
            with ⟨res, w3⟩
          rcases res with (_ | _) | text
          · simp [hrun]
          · simp [hrun]
          · simp only []
            by_cases herr : QString.contains (QString.trimmed text) "Error:" = true
            · simp [herr, hrun]
            · simp only [herr, if_false]
              by_cases hty : config.compressorType = Compressor.Type.None <;>
                cases hon : config.compressOnlySvgz <;>
                rcases hzip : sx.zip w3 config.compressorType config.compressionLevel
                  config.outputPath (config.outputPath ++ "z") with ⟨zf, w4⟩ <;>
                rcases zf with _ | (_ | _) <;>
                cases hwarn : QString.contains (QString.trimmed text) "Warning:" <;>
                simp [*]
        · simp
        · simp
      · simp only [hz, if_false]
        rcases hrun : sx.run w1 sx.cleanerName
          (config.args ++ ["--quiet", config.inputPath, config.outputPath]) 300000 true
          with ⟨res, w3⟩
        rcases res with (_ | _) | text
        · simp [hrun]
        · simp [hrun]
        · simp only []
          by_cases herr : QString.contains (QString.trimmed text) "Error:" = true
          · simp [herr, hrun]
          · simp only [herr, if_false]
            by_cases hty : config.compressorType = Compressor.Type.None <;>
              cases hon : config.compressOnlySvgz <;>
              rcases hzip : sx.zip w3 config.compressorType config.compressionLevel
                config.outputPath (config.outputPath ++ "z") with ⟨zf, w4⟩ <;>
              rcases zf with _ | (_ | _) <;>
              cases hwarn : QString.contains (QString.trimmed text) "Warning:" <;>
              simp [*]

/-- An output that `caught` returns carries the tree item of the config. -/
theorem caught_treeItem (config : Config) (t : Thrown) (w1 w2 : σ) (output : Output ρ)
    (h : (caught config t w1 : Outcome σ ρ) = .returned output w2) :
    output.treeItem = config.treeItem := by
  cases t with
  | qstring s =>
    simp only [caught, Outcome.returned.injEq] at h
    rw [← h.1]
    rfl
  | other e => simp [caught] at h

/-- The output of lines 110-119 carries the tree item of the config. -/
theorem reportX_treeItem (sx : ServicesX σ ρ) (config : Config) (w4 : σ) (inSize : Int)
    (outPath msg : String) :
    (reportX sx config w4 inSize outPath msg).treeItem = config.treeItem := by
  unfold reportX
  split <;> rfl

/-- An output returned after the runner carries the tree item of the config. -/
theorem afterRunX_treeItem (sx : ServicesX σ ρ) (config : Config) (inSize : Int)
    (text : String) (w3 w2 : σ) (output : Output ρ)
    (h : afterRunX sx config inSize text w3 = .returned output w2) :
    output.treeItem = config.treeItem := by
  unfold afterRunX at h
  split at h
  · simp only [Outcome.returned.injEq] at h
    rw [← h.1]
    rfl
  · split at h
    · split at h
      · exact caught_treeItem config _ _ _ _ h
      · simp only [Outcome.returned.injEq] at h
        rw [← h.1]
        exact reportX_treeItem _ _ _ _ _ _
    · simp only [Outcome.returned.injEq] at h
      rw [← h.1]
      exact reportX_treeItem _ _ _ _ _ _

/-- An output returned after the folder step carries the tree item of the
config. -/
theorem afterFolderX_treeItem (sx : ServicesX σ ρ) (config : Config) (w1 w2 : σ)
    (output : Output ρ) (h : afterFolderX sx config w1 = .returned output w2) :
    output.treeItem = config.treeItem := by
  unfold afterFolderX at h
  simp only [] at h
  split at h
  · exact caught_treeItem config _ _ _ _ h
  · split at h
    · exact caught_treeItem config _ _ _ _ h
    · exact afterRunX_treeItem sx config _ _ _ _ _ h

/-- With collaborators that throw nothing but `QString`s, what follows the
runner returns. -/
theorem afterRunX_returns (sx : ServicesX σ ρ) (config : Config) (inSize : Int)
    (text : String) (w3 : σ)
    (hzip : ∀ w1 ty l a b e, (sx.zip w1 ty l a b).1 ≠ some (.other e)) :
    ∃ output w2, afterRunX sx config inSize text w3 = .returned output w2 := by
  unfold afterRunX
  split
  · exact ⟨_, _, rfl⟩
  · split
    · split
      · rename_i t ht
        cases t with
        | qstring s => exact ⟨_, _, rfl⟩
        | other e => exact absurd ht (hzip _ _ _ _ _ _)
      · exact ⟨_, _, rfl⟩
    · exact ⟨_, _, rfl⟩

/-- With collaborators that throw nothing but `QString`s, what follows the
folder step returns. -/
theorem afterFolderX_returns (sx : ServicesX σ ρ) (config : Config) (w1 : σ)
    (hunzip : ∀ w1 a b e, (sx.unzip w1 a b).1 ≠ some (.other e))
    (hzip : ∀ w1 ty l a b e, (sx.zip w1 ty l a b).1 ≠ some (.other e))
    (hrun : ∀ w1 n a t mc e, (sx.run w1 n a t mc).1 ≠ .error (.other e)) :
    ∃ output w2, afterFolderX sx config w1 = .returned output w2 := by
  unfold afterFolderX
  simp only []
  split
  · rename_i t ht
    cases t with
    | qstring s => exact ⟨_, _, rfl⟩
    | other e =>
      split at ht
      · exact absurd ht (hunzip _ _ _ _)
      · simp at ht
  · split
    · rename_i t w3 ht
      cases t with
      | qstring s => exact ⟨_, _, rfl⟩
      | other e => exact absurd (congrArg Prod.fst ht) (hrun _ _ _ _ _ _)
    · exact afterRunX_returns sx config _ _ _ hzip

/-- Claim C6 (amended): on a config that passes the assertions, `cleanFile`
turns every `QString` thrown by a collaborator into `Error` with that message
for `config.treeItem`, and a failed `mkpath` into `Error` with the message of
line 52; with collaborators that throw nothing but `QString`s it always
returns an output, and every output it returns carries `config.treeItem`.  A
throw of another type is not handled at line 40 and reaches the caller. -/
theorem cleanFileX_catches_qstrings (sx : ServicesX σ ρ) (config : Config) (w : σ)
    (hpre : config.asserted = true) :
    (∀ output w1, cleanFileX sx config w = .returned output w1 →
      output.treeItem = config.treeItem) ∧
    cleanFileX sx config w ≠ .aborted ∧
    ((∀ w1 a b e, (sx.unzip w1 a b).1 ≠ some (.other e)) →
      (∀ w1 ty l a b e, (sx.zip w1 ty l a b).1 ≠ some (.other e)) →
      (∀ w1 n a t mc e, (sx.run w1 n a t mc).1 ≠ .error (.other e)) →
      ∃ output w1, cleanFileX sx config w = .returned output w1) ∧
    (∀ (m e : String) (w1 : σ),
      (caught config (.qstring m) w1 : Outcome σ ρ) =
        .returned (Output.error m config.treeItem) w1 ∧
      (caught config (.other e) w1 : Outcome σ ρ) = .propagated e w1) ∧
    (sx.pathExists w (sx.absolutePath w config.outputPath) = false →
      (sx.mkpath w (sx.absolutePath w config.outputPath)).1 = false →
      cleanFileX sx config w = .returned
        (Output.error
          (QString.arg (sx.tr "Failed to create an output folder:\n'%1'.")
            (sx.absolutePath w config.outputPath)) config.treeItem)
        (sx.mkpath w (sx.absolutePath w config.outputPath)).2) ∧
    ((sx.pathExists w (sx.absolutePath w config.outputPath) = true ∨
        (sx.mkpath w (sx.absolutePath w config.outputPath)).1 = true) →
      (∀ t, config.isInputFileCompressed = true →
        (sx.unzip (folderWorldX sx config w) config.inputPath config.outputPath).1 = some t →
        cleanFileX sx config w = caught config t (unzipWorldX sx config w)) ∧
      ((config.isInputFileCompressed = true →
          (sx.unzip (folderWorldX sx config w) config.inputPath config.outputPath).1 = none) →
        (∀ t,
          (sx.run (unzipWorldX sx config w) sx.cleanerName (cleanerArgs config) 300000 true).1 =
            .error t →
          cleanFileX sx config w = caught config t (runWorldX sx config w)) ∧
        (∀ text t,
          (sx.run (unzipWorldX sx config w) sx.cleanerName (cleanerArgs config) 300000 true).1 =
            .ok text →
          QString.contains (QString.trimmed text) "Error:" = false →
          shouldCompress config = true →
          (sx.zip (runWorldX sx config w) config.compressorType config.compressionLevel
            config.outputPath (config.outputPath ++ "z")).1 = some t →
          cleanFileX sx config w = caught config t
            (sx.zip (runWorldX sx config w) config.compressorType config.compressionLevel
              config.outputPath (config.outputPath ++ "z")).2))) := by
  have heq := cleanFileX_eq sx config w hpre
  refine ⟨?_, ?_, ?_, fun _ _ _ => ⟨rfl, rfl⟩, ?_, ?_⟩
  · intro output w1 h
    rw [heq] at h
    split at h
    · exact afterFolderX_treeItem sx config _ _ _ h
    · split at h
      · exact afterFolderX_treeItem sx config _ _ _ h
      · simp only [Outcome.returned.injEq] at h
        rw [← h.1]
        rfl
  · simp [cleanFileX, hpre]
    split <;> simp
  · intro hunzip hzip hrun
    rw [heq]
    split
    · exact afterFolderX_returns sx config _ hunzip hzip hrun
    · split
      · exact afterFolderX_returns sx config _ hunzip hzip hrun
      · exact ⟨_, _, rfl⟩
  · intro hex hmk
    rw [heq]
    simp [hex, hmk]
  · intro hfolder
    have hstep : cleanFileX sx config w = afterFolderX sx config (folderWorldX sx config w) := by
      rw [heq]
      unfold folderWorldX
      by_cases hex : sx.pathExists w (sx.absolutePath w config.outputPath) = true
      · simp [hex]
      · have hmk := hfolder.resolve_left hex
        simp [hex, hmk]
    rw [hstep]
    refine ⟨?_, ?_⟩
    · intro t hz hu
      simp [afterFolderX, unzipWorldX, hz, hu]
    · intro hu
      have hnone : (if config.isInputFileCompressed = true then
          (sx.unzip (folderWorldX sx config w) config.inputPath config.outputPath).1
          else none) = none := by
        by_cases hz : config.isInputFileCompressed = true
        · simp [hz, hu hz]
        · simp [hz]
      have hw2 : (if config.isInputFileCompressed = true then
          (sx.unzip (folderWorldX sx config w) config.inputPath config.outputPath).2
          else folderWorldX sx config w) = unzipWorldX sx config w := rfl
      refine ⟨?_, ?_⟩
      · intro t hrun
        unfold afterFolderX
        simp only [hnone, hw2]
        rcases hr : sx.run (unzipWorldX sx config w) sx.cleanerName (cleanerArgs config)
          300000 true with ⟨res, w3⟩
        rw [hr] at hrun
        simp only at hrun
        subst hrun
        simp [runWorldX, hr]
      · intro text t hrun herr hsc hzip
        unfold afterFolderX
        simp only [hnone, hw2]
        rcases hr : sx.run (unzipWorldX sx config w) sx.cleanerName (cleanerArgs config)
          300000 true with ⟨res, w3⟩
        rw [hr] at hrun
        simp only at hrun
        subst hrun
        have hw3 : runWorldX sx config w = w3 := by simp [runWorldX, hr]
        rw [hw3] at hzip
        simp [afterRunX, herr, hsc, hzip, hw3]

end Claims

/-! ## The claims at concrete inputs -/

section Witnesses

/-- Witness of C1: `/in/a.svg` with the cleaner printing `"Error: bad syntax"`
gives `Error("Error: bad syntax")` and no `zip` call; an SVGZ input whose
cleaner text has both markers gives `Error` with the trimmed text. -/
theorem cleanFile_error_marker_witness :
    demoConfig.asserted = true ∧
    (∃ r, cleanFile (demoServices (demoOk "Error: bad syntax")) demoConfig demoWorld = some r ∧
      r.output = Output.error "Error: bad syntax" 7 ∧ ∀ c ∈ r.trace, c.isZip = false) ∧
    (∃ r, cleanFile (demoServices (demoOk " Warning: w\nError: e \n")) demoConfigZ demoWorld =
        some r ∧
      r.output = Output.error "Warning: w\nError: e" 9 ∧ ∀ c ∈ r.trace, c.isZip = false) := by
  refine ⟨by decide, ?_, ?_⟩
  · obtain ⟨r, hr, h1, h2, _⟩ :=
      cleanFile_error_marker (demoServices (demoOk "Error: bad syntax")) demoConfig demoWorld
        "Error: bad syntax" (by decide) (Or.inl (by decide)) (fun hz => absurd hz (by decide))
        (by rfl) (by decide)
    exact ⟨r, hr, h1, h2⟩
  · obtain ⟨r, hr, h1, h2, _⟩ :=
      cleanFile_error_marker (demoServices (demoOk " Warning: w\nError: e \n")) demoConfigZ
        demoWorld " Warning: w\nError: e \n" (by decide) (Or.inl (by decide)) (fun _ => by rfl)
        (by rfl) (by decide)
    exact ⟨r, hr, h1, h2⟩

/-- Witness of C2: an SVGZ input whose cleaner text, trimmed, is
`"Warning: odd path"` gives `Warning` with that message; `/in/a.svg` with the
cleaner printing nothing gives `Ok`. -/
theorem cleanFile_warning_or_ok_witness :
    demoConfigZ.asserted = true ∧ demoConfig.asserted = true ∧
    (∃ r, cleanFile (demoServices (demoOk " \n Warning: odd path \t")) demoConfigZ demoWorld =
        some r ∧
      ∃ okData, r.output = Output.warning okData "Warning: odd path" 9) ∧
    (cleanFile (demoServices (demoOk " \n Warning: odd path \t")) demoConfigZ demoWorld).map
        Run.output =
      some (Output.warning ⟨7, (30, 7), "/out/b.svgz"⟩ "Warning: odd path" 9) ∧
    (∃ r, cleanFile (demoServices (demoOk "")) demoConfig demoWorld = some r ∧
      ∃ okData, r.output = Output.ok okData 7) ∧
    (cleanFile (demoServices (demoOk "")) demoConfig demoWorld).map Run.output =
      some (Output.ok ⟨40, (100, 40), "/out/a.svg"⟩ 7) := by
  refine ⟨by decide, by decide, ?_, by rfl, ?_, by rfl⟩
  · obtain ⟨r, hr, h1, _⟩ :=
      cleanFile_warning_or_ok (demoServices (demoOk " \n Warning: odd path \t")) demoConfigZ
        demoWorld " \n Warning: odd path \t" (by decide) (Or.inl (by decide)) (fun _ => by rfl)
        (by rfl) (fun _ => by rfl)
    obtain ⟨okData, hw, _⟩ := h1 (by decide)
    exact ⟨r, hr, okData, hw.mpr (by decide)⟩
  · obtain ⟨r, hr, _, h2⟩ :=
      cleanFile_warning_or_ok (demoServices (demoOk "")) demoConfig demoWorld ""
        (by decide) (Or.inl (by decide)) (fun hz => absurd hz (by decide)) (by rfl)
        (fun hsc => absurd hsc (by decide))
    exact ⟨r, hr, h2 rfl⟩

/-- Witness of C3: an SVGZ input with compressor `FormatA` restricted to SVGZ
inputs is recompressed once, at level 9, from `/out/b.svg` to `/out/b.svgz`. -/
theorem cleanFile_zip_iff_witness :
    demoConfigZ.asserted = true ∧
    ∃ r, cleanFile (demoServices (demoOk "")) demoConfigZ demoWorld = some r ∧
      (∃ c ∈ r.trace, c.isZip = true) ∧
      r.trace.filter Call.isZip =
        [Call.zip Compressor.Type.FormatA 9 "/out/b.svg" "/out/b.svgz" none] := by
  refine ⟨by decide, ?_⟩
  obtain ⟨r, hr, h⟩ :=
    cleanFile_zip_iff (demoServices (demoOk "")) demoConfigZ demoWorld (by decide)
  refine ⟨r, hr, ?_⟩
  have hrun : cleanFile (demoServices (demoOk "")) demoConfigZ demoWorld =
      some ⟨Output.ok ⟨7, (30, 7), "/out/b.svgz"⟩ 9,
        ((demoWorld.write "/out/b.svg" 60).write "/out/b.svg" 40).write "/out/b.svgz" 7,
        [Call.unzip "/in/b.svgz" "/out/b.svg" none,
          Call.run "svgcleaner" ["--quiet", "/out/b.svg", "/out/b.svg"] 300000 true (.ok ""),
          Call.zip Compressor.Type.FormatA 9 "/out/b.svg" "/out/b.svgz" none]⟩ := by rfl
  rw [hrun] at hr
  cases hr
  have h1 := h "svgcleaner" ["--quiet", "/out/b.svg", "/out/b.svg"] 300000 true ""
    (by decide) (by decide)
  exact ⟨h1.1.mpr (by decide), by decide⟩

/-- Witness of C4: in overwrite mode (`/in/a.svg` cleaned in place, 100 bytes
on entry, 40 after cleaning) the ratio is computed from 100 and 40. -/
theorem cleanFile_okData_witness :
    demoOverwrite.asserted = true ∧
    demoOverwrite.inputPath = demoOverwrite.outputPath ∧
    (demoServices (demoOk "Warning: x")).size demoWorld "/in/a.svg" = 100 ∧
    ∃ r, cleanFile (demoServices (demoOk "Warning: x")) demoOverwrite demoWorld = some r ∧
      r.output = Output.warning ⟨40, (100, 40), "/in/a.svg"⟩ "Warning: x" 3 ∧
      ∀ okData, r.output.okData? = some okData →
        okData.outputPath = "/in/a.svg" ∧
        okData.outSize = (demoServices (demoOk "Warning: x")).size r.world "/in/a.svg" ∧
        okData.ratio = (demoServices (demoOk "Warning: x")).cleanerRatio 100 40 := by
  refine ⟨by decide, rfl, by decide, ?_⟩
  obtain ⟨r, hr, h⟩ :=
    cleanFile_okData (demoServices (demoOk "Warning: x")) demoOverwrite demoWorld (by decide)
  refine ⟨r, hr, ?_⟩
  have hrun : cleanFile (demoServices (demoOk "Warning: x")) demoOverwrite demoWorld =
      some ⟨Output.warning ⟨40, (100, 40), "/in/a.svg"⟩ "Warning: x" 3,
        demoWorld.write "/in/a.svg" 40,
        [Call.run "svgcleaner" ["--quiet", "/in/a.svg", "/in/a.svg"] 300000 true
          (.ok "Warning: x")]⟩ := by rfl
  rw [hrun] at hr
  cases hr
  refine ⟨rfl, ?_⟩
  intro okData hd
  obtain ⟨h1, h2, _, h4⟩ := h okData hd
  cases hd
  exact ⟨h1, h2, h4 (fun _ => rfl)⟩

/-- Counterexample to C5 as stated: the folder `/new/x` does not exist and
cannot be created, and the message has a line break after the colon, not a
space. -/
theorem cleanFile_folder_failure_counterexample :
    demoConfigNew.asserted = true ∧
    (demoServices demoNoFolder).absolutePath demoWorld demoConfigNew.outputPath = "/new/x" ∧
    (demoServices demoNoFolder).pathExists demoWorld "/new/x" = false ∧
    ((demoServices demoNoFolder).mkpath demoWorld "/new/x").1 = false ∧
    (cleanFile (demoServices demoNoFolder) demoConfigNew demoWorld).map Run.output =
      some (Output.error "Failed to create an output folder:\n'/new/x'." 9) ∧
    (cleanFile (demoServices demoNoFolder) demoConfigNew demoWorld).map Run.output ≠
      some (Output.error "Failed to create an output folder: '/new/x'." 9) := by
  refine ⟨by decide, by decide, by decide, by decide, by rfl, by decide⟩

/-- Witness of C5 (amended): the folder `/new/x` does not exist and cannot be
created; the run is the failed `mkpath` alone. -/
theorem cleanFile_folder_failure_witness :
    demoConfigNew.asserted = true ∧
    (demoServices demoNoFolder).pathExists demoWorld
      ((demoServices demoNoFolder).absolutePath demoWorld demoConfigNew.outputPath) = false ∧
    ((demoServices demoNoFolder).mkpath demoWorld
      ((demoServices demoNoFolder).absolutePath demoWorld demoConfigNew.outputPath)).1 = false ∧
    ∃ r, cleanFile (demoServices demoNoFolder) demoConfigNew demoWorld = some r ∧
      r.output = Output.error "Failed to create an output folder:\n'/new/x'." 9 ∧
      r.trace = [Call.mkpath "/new/x" false] := by
  refine ⟨by decide, by decide, by decide, ?_⟩
  obtain ⟨r, hr, _, h2, h3, _⟩ :=
    cleanFile_folder_failure (demoServices demoNoFolder) demoConfigNew demoWorld
      (by decide) (by decide) (by decide)
  exact ⟨r, hr, h2 rfl, h3⟩

/-- Counterexample to C6 as stated: the process runner throws a value that is
not a `QString`; `cleanFile` returns no output and the throw reaches the
caller. -/
theorem cleanFileX_propagates_counterexample :
    demoConfig.asserted = true ∧
    cleanFileX (demoServicesX (.error (.other "std::bad_alloc"))) demoConfig demoWorld =
      .propagated "std::bad_alloc" demoWorld ∧
    ¬ ∃ output w1,
      cleanFileX (demoServicesX (.error (.other "std::bad_alloc"))) demoConfig demoWorld =
        .returned output w1 := by
  refine ⟨by decide, by rfl, ?_⟩
  rintro ⟨output, w1, h⟩
  have h2 : cleanFileX (demoServicesX (.error (.other "std::bad_alloc"))) demoConfig demoWorld =
      .propagated "std::bad_alloc" demoWorld := by rfl
  rw [h2] at h
  cases h

/-- Witness of C6 (amended): the process runner throws the `QString`
`"timeout"`; `cleanFile` returns `Error("timeout")` for the tree item 7. -/
theorem cleanFileX_catches_qstrings_witness :
    demoConfig.asserted = true ∧
    cleanFileX (demoServicesX (.error (.qstring "timeout"))) demoConfig demoWorld =
      .returned (Output.error "timeout" 7) demoWorld ∧
    (Output.error "timeout" 7 : Output (Int × Int)).treeItem = demoConfig.treeItem := by
  have h := cleanFileX_catches_qstrings (demoServicesX (.error (.qstring "timeout")))
    demoConfig demoWorld (by decide)
  obtain ⟨h1, _, _, _, _, h6⟩ := h
  have hrun := ((h6 (Or.inl (by decide))).2 (fun hz => absurd hz (by decide))).1
    (.qstring "timeout") (by rfl)
  exact ⟨by decide, hrun, h1 _ _ hrun⟩

/-- Witness of C7: for the SVGZ input the runner is called once, on the
decompressed file, and the message of the `Warning` is the trimmed text. -/
theorem cleanFile_runner_call_witness :
    demoConfigZ.asserted = true ∧
    ∃ r, cleanFile (demoServices (demoOk " \n Warning: odd path \t")) demoConfigZ demoWorld =
        some r ∧
      (∃ result, r.trace.filter Call.isRun =
        [Call.run "svgcleaner" ["--quiet", "/out/b.svg", "/out/b.svg"] 300000 true result]) ∧
      r.output = Output.warning ⟨7, (30, 7), "/out/b.svgz"⟩ "Warning: odd path" 9 ∧
      "Warning: odd path" = QString.trimmed " \n Warning: odd path \t" := by
  refine ⟨by decide, ?_⟩
  obtain ⟨r, hr, h1, h2⟩ :=
    cleanFile_runner_call (demoServices (demoOk " \n Warning: odd path \t")) demoConfigZ
      demoWorld (by decide) (Or.inl (by decide))
  refine ⟨r, hr, ?_⟩
  have hrun : cleanFile (demoServices (demoOk " \n Warning: odd path \t")) demoConfigZ
      demoWorld =
      some ⟨Output.warning ⟨7, (30, 7), "/out/b.svgz"⟩ "Warning: odd path" 9,
        ((demoWorld.write "/out/b.svg" 60).write "/out/b.svg" 40).write "/out/b.svgz" 7,
        [Call.unzip "/in/b.svgz" "/out/b.svg" none,
          Call.run "svgcleaner" ["--quiet", "/out/b.svg", "/out/b.svg"] 300000 true
            (.ok " \n Warning: odd path \t"),
          Call.zip Compressor.Type.FormatA 9 "/out/b.svg" "/out/b.svgz" none]⟩ := by rfl
  rw [hrun] at hr
  cases hr
  obtain ⟨result, hres⟩ := h1 (by decide)
  have hmsg := (h2 "svgcleaner" ["--quiet", "/out/b.svg", "/out/b.svg"] 300000 true
    " \n Warning: odd path \t" (by decide)).2.1 _ _ _ rfl
  exact ⟨⟨result, hres⟩, rfl, hmsg.1⟩

/-- Witness of C8: the input `/in/b.svgz` is compressed, so it is unzipped
into `/out/b.svg` before the cleaner runs. -/
theorem cleanFile_unzip_iff_witness :
    demoConfigZ.asserted = true ∧
    demoConfigZ.isInputFileCompressed = true ∧
    ∃ r, cleanFile (demoServices (demoOk "")) demoConfigZ demoWorld = some r ∧
      r.trace.filter Call.isUnzip = [Call.unzip "/in/b.svgz" "/out/b.svg" none] ∧
      noneAfter Call.isUnzip Call.isRun r.trace = true := by
  refine ⟨by decide, by decide, ?_⟩
  obtain ⟨_, _, _, _, _, _, r, hr, _, h2⟩ :=
    cleanFile_unzip_iff (demoServices (demoOk "")) demoConfigZ demoWorld (by decide)
      (Or.inl (by decide))
  refine ⟨r, hr, ?_, h2⟩
  have hrun : cleanFile (demoServices (demoOk "")) demoConfigZ demoWorld =
      some ⟨Output.ok ⟨7, (30, 7), "/out/b.svgz"⟩ 9,
        ((demoWorld.write "/out/b.svg" 60).write "/out/b.svg" 40).write "/out/b.svgz" 7,
        [Call.unzip "/in/b.svgz" "/out/b.svg" none,
          Call.run "svgcleaner" ["--quiet", "/out/b.svg", "/out/b.svg"] 300000 true (.ok ""),
          Call.zip Compressor.Type.FormatA 9 "/out/b.svg" "/out/b.svgz" none]⟩ := by rfl
  rw [hrun] at hr
  cases hr
  decide

/-- Witness of C9: the folder `/new/x` does not exist and can be created; the
run starts with its `mkpath`, followed by `unzip`, the runner and `zip`. -/
theorem cleanFile_mkpath_first_witness :
    demoConfigNew.asserted = true ∧
    (demoServices (demoOk "")).pathExists demoWorld "/new/x" = false ∧
    ∃ r, cleanFile (demoServices (demoOk "")) demoConfigNew demoWorld = some r ∧
      ∃ rest, r.trace = Call.mkpath "/new/x" true :: rest ∧ ∀ c ∈ rest, c.isMkpath = false := by
  refine ⟨by decide, by decide, ?_⟩
  obtain ⟨r, hr, h1, _⟩ :=
    cleanFile_mkpath_first (demoServices (demoOk "")) demoConfigNew demoWorld (by decide)
  exact ⟨r, hr, h1 (by decide) (by decide)⟩

/-- Witness of C10: an SVGZ input on which the cleaner reports an error: the
decompressed file `/out/b.svg` is removed, and only it. -/
theorem cleanFile_remove_iff_witness :
    demoConfigZ.asserted = true ∧
    ∃ r, cleanFile (demoServices (demoOk "Error: bad syntax")) demoConfigZ demoWorld = some r ∧
      (∃ c ∈ r.trace, c.isRemove = true) ∧
      ∀ c ∈ r.trace, c.isRemove = true → ∃ flag, c = Call.remove "/out/b.svg" flag := by
  refine ⟨by decide, ?_⟩
  obtain ⟨r, hr, h1, _, h3, _⟩ :=
    cleanFile_remove_iff (demoServices (demoOk "Error: bad syntax")) demoConfigZ demoWorld
      (by decide)
  refine ⟨r, hr, ?_, h3⟩
  have hrun : cleanFile (demoServices (demoOk "Error: bad syntax")) demoConfigZ demoWorld =
      some ⟨Output.error "Error: bad syntax" 9, demoWorld,
        [Call.unzip "/in/b.svgz" "/out/b.svg" none,
          Call.run "svgcleaner" ["--quiet", "/out/b.svg", "/out/b.svg"] 300000 true
            (.ok "Error: bad syntax"),
          Call.remove "/out/b.svg" true]⟩ := by rfl
  rw [hrun] at hr
  cases hr
  exact h1.mpr ⟨by decide, "svgcleaner", ["--quiet", "/out/b.svg", "/out/b.svg"], 300000, true,
    "Error: bad syntax", by decide, by decide⟩

end Witnesses

end SvgCleaner
